import Mathlib

/-!
Verification development for the wal2http repository: a shallow embedding of
the binary codec (src/buffer.rs, src/utils/binary.rs), the pgoutput message
decoder (src/parser.rs), the replication state and session processing
(src/types.rs, src/protocol/messages.rs, src/server.rs,
src/replication/server.rs), the typed-value decoder
(src/event_sink/pg_type_conversion.rs) and the sink retry loops
(src/event_sink/http.rs, src/event_sink/hook0.rs), together with theorems
settling the specification claims.

Bytes are modelled as natural numbers below 256 in a `List Nat`; Rust strings
are represented by their UTF-8 byte content (the lossy UTF-8 decoding applied
by the source is abstracted away: every claim here depends only on which bytes
are consumed and carried, never on the Unicode reading of those bytes).
Machine integers are `Nat` (unsigned) or `Int` (signed, two's complement via
explicit reduction mod 2^w where the source converts).
-/

set_option maxRecDepth 8000

namespace Wal2Http

/-- Decidable equality for `Except`, used to evaluate the embedded functions
at concrete inputs. -/
def exceptDecEq {ε α : Type} [DecidableEq ε] [DecidableEq α] :
    DecidableEq (Except ε α)
  | .error e, .error f =>
      if h : e = f then .isTrue (by rw [h]) else .isFalse (by simp [h])
  | .error _, .ok _ => .isFalse (by simp)
  | .ok _, .error _ => .isFalse (by simp)
  | .ok a, .ok b =>
      if h : a = b then .isTrue (by rw [h]) else .isFalse (by simp [h])

instance {ε α : Type} [DecidableEq ε] [DecidableEq α] : DecidableEq (Except ε α) :=
  exceptDecEq

/-! ## Big-endian byte primitives (src/utils/binary.rs)

`buf_recv_uN` reads the first N bytes of a slice in big-endian order and
asserts that the slice is long enough; `buf_send_uN` writes `to_be_bytes`.
The assertion is modelled by returning `none` (the Rust code aborts). -/

/-- Big-endian value of a byte list: fold accumulating `acc * 256 + b`. -/
def beBytesToNat (bs : List Nat) : Nat :=
  bs.foldl (fun acc b => acc * 256 + b) 0

/-- Little-endian base-256 digits of `v`, exactly `k` of them. -/
def leBytes : Nat → Nat → List Nat
  | 0, _ => []
  | k + 1, v => (v % 256) :: leBytes k (v / 256)

/-- Big-endian `k`-byte encoding of `v` (the embedding of `to_be_bytes`,
which truncates to the value mod 2^(8k) by construction). -/
def beBytes (k v : Nat) : List Nat :=
  (leBytes k v).reverse

/-- Two's complement reading of a `w`-bit unsigned value as a signed integer. -/
def toSigned (w n : Nat) : Int :=
  if n < 2 ^ (w - 1) then (n : Int) else (n : Int) - 2 ^ w

/-- buf_recv_u16: big-endian u16 from the front of a slice (assertion failure
when fewer than 2 bytes remain is modelled as `none`). -/
def bufRecvU16 (bs : List Nat) : Option Nat :=
  if 2 ≤ bs.length then some (beBytesToNat (bs.take 2)) else none

/-- buf_recv_u32. -/
def bufRecvU32 (bs : List Nat) : Option Nat :=
  if 4 ≤ bs.length then some (beBytesToNat (bs.take 4)) else none

/-- buf_recv_u64. -/
def bufRecvU64 (bs : List Nat) : Option Nat :=
  if 8 ≤ bs.length then some (beBytesToNat (bs.take 8)) else none

/-- buf_recv_i16. -/
def bufRecvI16 (bs : List Nat) : Option Int :=
  (bufRecvU16 bs).map (toSigned 16)

/-- buf_recv_i32. -/
def bufRecvI32 (bs : List Nat) : Option Int :=
  (bufRecvU32 bs).map (toSigned 32)

/-- buf_recv_i64. -/
def bufRecvI64 (bs : List Nat) : Option Int :=
  (bufRecvU64 bs).map (toSigned 64)

/-- buf_recv_i8: a single byte read as a signed 8-bit integer. -/
def bufRecvI8 (bs : List Nat) : Option Int :=
  if 1 ≤ bs.length then some (toSigned 8 (bs.headD 0)) else none

theorem beBytesToNat_append (xs ys : List Nat) :
    beBytesToNat (xs ++ ys) = ys.foldl (fun acc b => acc * 256 + b) (beBytesToNat xs) := by
  simp [beBytesToNat, List.foldl_append]

theorem beBytesToNat_snoc (xs : List Nat) (b : Nat) :
    beBytesToNat (xs ++ [b]) = beBytesToNat xs * 256 + b := by
  simp [beBytesToNat_append]

theorem beBytes_succ (k v : Nat) :
    beBytes (k + 1) v = beBytes k (v / 256) ++ [v % 256] := by
  simp [beBytes, leBytes]

/-- Decoding a big-endian encoding recovers the value modulo 2^(8k). -/
theorem beBytesToNat_beBytes (k v : Nat) :
    beBytesToNat (beBytes k v) = v % 256 ^ k := by
  induction k generalizing v with
  | zero => simp [beBytes, leBytes, beBytesToNat, Nat.mod_one]
  | succ k ih =>
      rw [beBytes_succ, beBytesToNat_snoc, ih]
      rw [pow_succ, Nat.mul_comm (256 ^ k) 256, Nat.mod_mul]
      ring

theorem beBytes_length (k v : Nat) : (beBytes k v).length = k := by
  induction k generalizing v with
  | zero => simp [beBytes, leBytes]
  | succ k ih => rw [beBytes_succ]; simp [ih]

/-! ## BufferReader (src/buffer.rs)

The reader owns an immutable byte buffer and a cursor.  Every operation is
modelled as a function from the reader to a result *and* the post-state, so
that cursor movement on the error path is captured faithfully. -/

structure BufferReader where
  buffer : List Nat
  position : Nat
deriving Repr, DecidableEq

/-- Remaining bytes after the cursor (saturating, as in the source). -/
def BufferReader.remaining (r : BufferReader) : Nat :=
  if r.position < r.buffer.length then r.buffer.length - r.position else 0

def BufferReader.hasBytes (r : BufferReader) (count : Nat) : Prop :=
  count ≤ r.remaining

instance (r : BufferReader) (count : Nat) : Decidable (r.hasBytes count) := by
  unfold BufferReader.hasBytes; infer_instance

theorem reader_remaining_eq (buf : List Nat) (p : Nat) :
    (BufferReader.mk buf p).remaining = buf.length - p := by
  unfold BufferReader.remaining
  dsimp only
  split <;> omega

/-- read_u8: bounds check, then one byte, cursor + 1. -/
def readU8 (r : BufferReader) : Except String Nat × BufferReader :=
  if r.hasBytes 1 then
    (.ok ((r.buffer.drop r.position).headD 0), ⟨r.buffer, r.position + 1⟩)
  else
    (.error "Not enough bytes for u8", r)

/-- read_i16. -/
def readI16 (r : BufferReader) : Except String Int × BufferReader :=
  if r.hasBytes 2 then
    (.ok (toSigned 16 (beBytesToNat ((r.buffer.drop r.position).take 2))),
      ⟨r.buffer, r.position + 2⟩)
  else
    (.error "Not enough bytes for i16", r)

/-- read_u32. -/
def readU32 (r : BufferReader) : Except String Nat × BufferReader :=
  if r.hasBytes 4 then
    (.ok (beBytesToNat ((r.buffer.drop r.position).take 4)), ⟨r.buffer, r.position + 4⟩)
  else
    (.error "Not enough bytes for u32", r)

/-- read_i32. -/
def readI32 (r : BufferReader) : Except String Int × BufferReader :=
  if r.hasBytes 4 then
    (.ok (toSigned 32 (beBytesToNat ((r.buffer.drop r.position).take 4))),
      ⟨r.buffer, r.position + 4⟩)
  else
    (.error "Not enough bytes for i32", r)

/-- read_u64. -/
def readU64 (r : BufferReader) : Except String Nat × BufferReader :=
  if r.hasBytes 8 then
    (.ok (beBytesToNat ((r.buffer.drop r.position).take 8)), ⟨r.buffer, r.position + 8⟩)
  else
    (.error "Not enough bytes for u64", r)

/-- read_i64. -/
def readI64 (r : BufferReader) : Except String Int × BufferReader :=
  if r.hasBytes 8 then
    (.ok (toSigned 64 (beBytesToNat ((r.buffer.drop r.position).take 8))),
      ⟨r.buffer, r.position + 8⟩)
  else
    (.error "Not enough bytes for i64", r)

/-- peek_u8: no cursor movement at all. -/
def peekU8 (r : BufferReader) : Except String Nat × BufferReader :=
  if r.hasBytes 1 then
    (.ok ((r.buffer.drop r.position).headD 0), r)
  else
    (.error "No bytes to peek", r)

/-- read_null_terminated_string: the scan loop advances the cursor over the
non-zero bytes; when no terminator is found the error is returned with the
cursor left where the scan stopped (end of buffer). -/
def readNullTerminatedString (r : BufferReader) :
    Except String (List Nat) × BufferReader :=
  let scan := (r.buffer.drop r.position).takeWhile (fun b => decide (b ≠ 0))
  let newPos := r.position + scan.length
  if r.buffer.length ≤ newPos then
    (.error "String not null-terminated", ⟨r.buffer, newPos⟩)
  else
    (.ok scan, ⟨r.buffer, newPos + 1⟩)

/-- read_length_prefixed_string: a 32-bit length then that many bytes; the
negative-length and truncation errors are reported after the length field has
already been consumed. -/
def readLengthPrefixedString (r : BufferReader) :
    Except String (List Nat) × BufferReader :=
  match readI32 r with
  | (.error e, r') => (.error e, r')
  | (.ok len, r') =>
      if len < 0 then (.error "Negative string length", r')
      else
        let n := len.toNat
        if r'.hasBytes n then
          (.ok ((r'.buffer.drop r'.position).take n), ⟨r'.buffer, r'.position + n⟩)
        else
          (.error "String data truncated", r')

/-! ## BufferWriter (src/buffer.rs) -/

structure BufferWriter where
  buffer : List Nat
  position : Nat
deriving Repr, DecidableEq

def BufferWriter.remaining (w : BufferWriter) : Nat :=
  if w.position < w.buffer.length then w.buffer.length - w.position else 0

def BufferWriter.hasSpace (w : BufferWriter) (count : Nat) : Prop :=
  count ≤ w.remaining

instance (w : BufferWriter) (count : Nat) : Decidable (w.hasSpace count) := by
  unfold BufferWriter.hasSpace; infer_instance

/-- Overwrite `bytes` into `buf` starting at `pos` (copy_from_slice). -/
def spliceAt (buf : List Nat) (pos : Nat) (bytes : List Nat) : List Nat :=
  buf.take pos ++ bytes ++ buf.drop (pos + bytes.length)

/-- write_u8. -/
def writeU8 (w : BufferWriter) (v : Nat) : Except String Unit × BufferWriter :=
  if w.hasSpace 1 then
    (.ok (), ⟨spliceAt w.buffer w.position [v % 256], w.position + 1⟩)
  else
    (.error "Not enough space for u8", w)

/-- write_u32 (big-endian). -/
def writeU32 (w : BufferWriter) (v : Nat) : Except String Unit × BufferWriter :=
  if w.hasSpace 4 then
    (.ok (), ⟨spliceAt w.buffer w.position (beBytes 4 v), w.position + 4⟩)
  else
    (.error "Not enough space for u32", w)

/-- write_u64 (big-endian). -/
def writeU64 (w : BufferWriter) (v : Nat) : Except String Unit × BufferWriter :=
  if w.hasSpace 8 then
    (.ok (), ⟨spliceAt w.buffer w.position (beBytes 8 v), w.position + 8⟩)
  else
    (.error "Not enough space for u64", w)

/-- write_i64: two's complement big-endian. -/
def writeI64 (w : BufferWriter) (v : Int) : Except String Unit × BufferWriter :=
  if w.hasSpace 8 then
    (.ok (), ⟨spliceAt w.buffer w.position (beBytes 8 ((v % (2 ^ 64 : Int)).toNat)),
      w.position + 8⟩)
  else
    (.error "Not enough space for i64", w)

/-- write_i32: two's complement big-endian. -/
def writeI32 (w : BufferWriter) (v : Int) : Except String Unit × BufferWriter :=
  if w.hasSpace 4 then
    (.ok (), ⟨spliceAt w.buffer w.position (beBytes 4 ((v % (2 ^ 32 : Int)).toNat)),
      w.position + 4⟩)
  else
    (.error "Not enough space for i32", w)

/-- write_bytes. -/
def writeBytes (w : BufferWriter) (bytes : List Nat) :
    Except String Unit × BufferWriter :=
  if w.hasSpace bytes.length then
    (.ok (), ⟨spliceAt w.buffer w.position bytes, w.position + bytes.length⟩)
  else
    (.error "Not enough space for bytes", w)

def BufferWriter.bytesWritten (w : BufferWriter) : Nat := w.position

/-! ## Data model (src/types.rs, src/protocol/messages.rs)

Rust `String` fields hold the UTF-8 bytes; `char` fields hold the byte value. -/

structure ColumnInfo where
  keyFlag : Int
  columnName : List Nat
  columnType : Nat
  atttypmod : Int
deriving Repr, DecidableEq

structure RelationInfo where
  oid : Nat
  «namespace» : List Nat
  relationName : List Nat
  replicaIdentity : Nat
  columnCount : Int
  columns : List ColumnInfo
deriving Repr, DecidableEq

structure ColumnData where
  dataType : Nat
  length : Int
  data : List Nat
deriving Repr, DecidableEq

structure TupleData where
  columnCount : Int
  columns : List ColumnData
  processedLength : Nat
deriving Repr, DecidableEq

inductive ReplicationMessage where
  | begin (finalLsn : Nat) (timestamp : Int) (xid : Nat)
  | commit (flags : Nat) (commitLsn : Nat) (endLsn : Nat) (timestamp : Int)
  | relation (relation : RelationInfo)
  | insert (relationId : Nat) (tupleData : TupleData) (isStream : Bool) (xid : Option Nat)
  | update (relationId : Nat) (keyType : Option Nat) (oldTupleData : Option TupleData)
      (newTupleData : TupleData) (isStream : Bool) (xid : Option Nat)
  | delete (relationId : Nat) (keyType : Nat) (tupleData : TupleData)
      (isStream : Bool) (xid : Option Nat)
  | truncate (relationIds : List Nat) (flags : Int) (isStream : Bool) (xid : Option Nat)
  | streamStart (xid : Nat) (firstSegment : Bool)
  | streamStop
  | streamCommit (xid : Nat) (flags : Nat) (commitLsn : Nat) (endLsn : Nat) (timestamp : Int)
  | streamAbort (xid : Nat) (subtransactionXid : Nat)
deriving Repr, DecidableEq

/-! ## Replication state (ReplicationState in src/types.rs and
src/protocol/messages.rs; both copies have identical update semantics)

The `HashMap<Oid, RelationInfo>` is modelled as an association list whose
insert replaces any previous entry for the key. -/

structure ReplicationState where
  relations : List (Nat × RelationInfo)
  receivedLsn : Nat
  appliedLsn : Nat
deriving Repr, DecidableEq

def ReplicationState.new : ReplicationState := ⟨[], 0, 0⟩

/-- add_relation: HashMap insert keyed by the relation oid (replaces). -/
def addRelation (s : ReplicationState) (r : RelationInfo) : ReplicationState :=
  ⟨(r.oid, r) :: s.relations.filter (fun p => decide (p.1 ≠ r.oid)),
    s.receivedLsn, s.appliedLsn⟩

/-- get_relation. -/
def getRelation (s : ReplicationState) (oid : Nat) : Option RelationInfo :=
  (s.relations.find? (fun p => decide (p.1 = oid))).map (·.2)

/-- update_lsn: raise received_lsn to `max` when the new value is positive. -/
def updateLsn (s : ReplicationState) (lsn : Nat) : ReplicationState :=
  if 0 < lsn then ⟨s.relations, max s.receivedLsn lsn, s.appliedLsn⟩ else s

/-- update_applied_lsn: raise applied_lsn to `max` when the new value is positive. -/
def updateAppliedLsn (s : ReplicationState) (lsn : Nat) : ReplicationState :=
  if 0 < lsn then ⟨s.relations, s.receivedLsn, max s.appliedLsn lsn⟩ else s

/-! ## Session operations on the watermarks (src/replication/server.rs)

The receive loop invokes `update_lsn` with a frame position and, after a
successful sink call, `update_applied_lsn(self.state.received_lsn)`; the
keepalive path of src/server.rs also invokes `update_lsn`.  A session history
is a list of these invocations. -/

inductive SessionOp where
  | updateReceived (lsn : Nat)
  | applyReceived
deriving Repr, DecidableEq

def stepOp (s : ReplicationState) : SessionOp → ReplicationState
  | .updateReceived lsn => updateLsn s lsn
  | .applyReceived => updateAppliedLsn s s.receivedLsn

def runOps (ops : List SessionOp) : ReplicationState :=
  ops.foldl stepOp ReplicationState.new

/-! ## Feedback frames (send_feedback in src/replication/server.rs and
src/server.rs)

Both build a 34-byte standby status update with a BufferWriter. -/

/-- The shared write sequence of both send_feedback implementations:
tag byte, write position, flush position, apply position, timestamp, reply flag 0. -/
def runFeedbackWrites (w : BufferWriter) (lastLsn flushLsn applyLsn : Nat)
    (ts : Int) : Except String Unit × BufferWriter :=
  match writeU8 w 114 with
  | (.error e, w) => (.error e, w)
  | (.ok _, w) =>
  match writeU64 w lastLsn with
  | (.error e, w) => (.error e, w)
  | (.ok _, w) =>
  match writeU64 w flushLsn with
  | (.error e, w) => (.error e, w)
  | (.ok _, w) =>
  match writeU64 w applyLsn with
  | (.error e, w) => (.error e, w)
  | (.ok _, w) =>
  match writeI64 w ts with
  | (.error e, w) => (.error e, w)
  | (.ok _, w) =>
  match writeU8 w 0 with
  | (.error e, w) => (.error e, w)
  | (.ok _, w) => (.ok (), w)

/-- send_feedback of src/replication/server.rs: reports received_lsn as the
write and flush positions and applied_lsn as the apply position, then checks
that exactly 34 bytes were written. -/
def sendFeedbackReplication (s : ReplicationState) (ts : Int) :
    Except String (List Nat) :=
  match runFeedbackWrites ⟨List.replicate 34 0, 0⟩ s.receivedLsn s.receivedLsn
      s.appliedLsn ts with
  | (.error e, _) => .error e
  | (.ok _, w) =>
      if w.bytesWritten = 34 then .ok w.buffer
      else .error "Failed to write feedback data"

/-- send_feedback of src/server.rs: skips the frame entirely while
received_lsn is zero, and reports INVALID_XLOG_REC_PTR (0) as the apply
position regardless of the applied watermark. -/
def sendFeedbackLegacy (s : ReplicationState) (ts : Int) :
    Except String (Option (List Nat)) :=
  if s.receivedLsn = 0 then .ok none
  else
    match runFeedbackWrites ⟨List.replicate 34 0, 0⟩ s.receivedLsn s.receivedLsn
        0 ts with
    | (.error e, _) => .error e
    | (.ok _, w) => .ok (some (w.buffer.take w.bytesWritten))

/-! ## pgoutput message decoding (src/parser.rs)

The parse functions walk a raw byte buffer with an explicit offset and read
multi-byte fields through the buf_recv helpers, which assert that the slice
is long enough; an assertion failure (a Rust abort) is modelled by the
distinguished failure `assertFail`, kept apart from the error returns. -/

inductive PFail where
  | err (msg : String)
  | assertFail
deriving Repr, DecidableEq

/-- buf_recv_u32 applied to the slice starting at `off`. -/
def recvU32At (buf : List Nat) (off : Nat) : Except PFail Nat :=
  if off + 4 ≤ buf.length then .ok (beBytesToNat ((buf.drop off).take 4))
  else .error .assertFail

/-- buf_recv_u64 applied to the slice starting at `off`. -/
def recvU64At (buf : List Nat) (off : Nat) : Except PFail Nat :=
  if off + 8 ≤ buf.length then .ok (beBytesToNat ((buf.drop off).take 8))
  else .error .assertFail

/-- buf_recv_i64 applied to the slice starting at `off`. -/
def recvI64At (buf : List Nat) (off : Nat) : Except PFail Int :=
  if off + 8 ≤ buf.length then .ok (toSigned 64 (beBytesToNat ((buf.drop off).take 8)))
  else .error .assertFail

/-- buf_recv_i32 applied to the slice starting at `off`. -/
def recvI32At (buf : List Nat) (off : Nat) : Except PFail Int :=
  if off + 4 ≤ buf.length then .ok (toSigned 32 (beBytesToNat ((buf.drop off).take 4)))
  else .error .assertFail

/-- buf_recv_i16 applied to the slice starting at `off`. -/
def recvI16At (buf : List Nat) (off : Nat) : Except PFail Int :=
  if off + 2 ≤ buf.length then .ok (toSigned 16 (beBytesToNat ((buf.drop off).take 2)))
  else .error .assertFail

/-- buf_recv_i8 applied to the slice starting at `off`. -/
def recvI8At (buf : List Nat) (off : Nat) : Except PFail Int :=
  if off + 1 ≤ buf.length then .ok (toSigned 8 ((buf.drop off).headD 0))
  else .error .assertFail

/-- The byte `buffer[off]`, used only after an explicit bounds guard. -/
def byteAt (buf : List Nat) (off : Nat) : Nat :=
  (buf.drop off).headD 0

/-- parse_begin_message. -/
def parseBeginMessage (buf : List Nat) : Except PFail ReplicationMessage := do
  if buf.length < 21 then throw (.err "Begin message too short")
  let finalLsn ← recvU64At buf 1
  let timestamp ← recvI64At buf 9
  let xid ← recvU32At buf 17
  return .begin finalLsn timestamp xid

/-- parse_commit_message. -/
def parseCommitMessage (buf : List Nat) : Except PFail ReplicationMessage := do
  if buf.length < 26 then throw (.err "Commit message too short")
  let flags := byteAt buf 1
  let commitLsn ← recvU64At buf 2
  let endLsn ← recvU64At buf 10
  let timestamp ← recvI64At buf 18
  return .commit flags commitLsn endLsn timestamp

/-- The per-column loop of parse_relation_message: key flag, null-terminated
column name, type oid, type modifier. -/
def parseRelationColumns (buf : List Nat) (off : Nat) :
    Nat → Except PFail (List ColumnInfo × Nat)
  | 0 => .ok ([], off)
  | count + 1 => do
      if buf.length ≤ off then throw (.err "Column data truncated")
      let keyFlag ← recvI8At buf off
      let off := off + 1
      let scan := (buf.drop off).takeWhile (fun b => decide (b ≠ 0))
      let nameEnd := off + scan.length
      if buf.length ≤ nameEnd then throw (.err "Invalid column name")
      let off := nameEnd + 1
      if buf.length < off + 8 then throw (.err "Column data truncated")
      let columnType ← recvU32At buf off
      let atttypmod ← recvI32At buf (off + 4)
      let (rest, finalOff) ← parseRelationColumns buf (off + 8) count
      return (⟨keyFlag, scan, columnType, atttypmod⟩ :: rest, finalOff)

/-- parse_relation_message. -/
def parseRelationMessage (buf : List Nat) : Except PFail ReplicationMessage := do
  if buf.length < 7 then throw (.err "Relation message too short")
  let oid ← recvU32At buf 1
  let off := 5
  let nsScan := (buf.drop off).takeWhile (fun b => decide (b ≠ 0))
  let nsEnd := off + nsScan.length
  if buf.length ≤ nsEnd then throw (.err "Invalid namespace in relation message")
  let off := nsEnd + 1
  let relScan := (buf.drop off).takeWhile (fun b => decide (b ≠ 0))
  let relEnd := off + relScan.length
  if buf.length ≤ relEnd then throw (.err "Invalid relation name in relation message")
  let off := relEnd + 1
  if buf.length ≤ off then throw (.err "Relation message truncated")
  let replicaIdentity := byteAt buf off
  let off := off + 1
  if buf.length < off + 2 then throw (.err "Relation message truncated")
  let columnCount ← recvI16At buf off
  let off := off + 2
  let (columns, _) ← parseRelationColumns buf off columnCount.toNat
  return .relation ⟨oid, nsScan, relScan, replicaIdentity, columnCount, columns⟩

/-- The per-column loop of parse_tuple_data: one kind byte per column;
`'t'` columns carry an i32 length (cast to usize for the bounds check, so a
negative length always fails it) and that many bytes. -/
def parseTupleColumns (buf : List Nat) (off : Nat) :
    Nat → Except PFail (List ColumnData × Nat)
  | 0 => .ok ([], off)
  | count + 1 => do
      if buf.length ≤ off then throw (.err "Tuple data truncated")
      let dataType := byteAt buf off
      let off := off + 1
      if dataType = 110 then
        let (rest, finalOff) ← parseTupleColumns buf off count
        return (⟨110, 0, []⟩ :: rest, finalOff)
      else if dataType = 117 then
        let (rest, finalOff) ← parseTupleColumns buf off count
        return (⟨117, 0, []⟩ :: rest, finalOff)
      else if dataType = 116 then
        if buf.length < off + 4 then throw (.err "Text data length truncated")
        let textLen ← recvI32At buf off
        let off := off + 4
        let textLenUsize := (textLen % (2 ^ 64 : Int)).toNat
        if buf.length < off + textLenUsize then throw (.err "Text data truncated")
        let data := (buf.drop off).take textLenUsize
        let (rest, finalOff) ← parseTupleColumns buf (off + textLenUsize) count
        return (⟨116, textLen, data⟩ :: rest, finalOff)
      else throw (.err "Unknown tuple data type")

/-- parse_tuple_data: i16 column count, then the column loop; the result
records in `processedLength` how many bytes of the buffer were consumed. -/
def parseTupleData (buf : List Nat) : Except PFail TupleData := do
  if buf.length < 2 then throw (.err "Tuple data too short")
  let columnCount ← recvI16At buf 0
  let (columns, finalOff) ← parseTupleColumns buf 2 columnCount.toNat
  return ⟨columnCount, columns, finalOff⟩

/-- parse_insert_message, with the streaming disambiguation on the byte after
the first u32: a `'N'` (78) there means the u32 was the relation id. -/
def parseInsertMessage (buf : List Nat) : Except PFail ReplicationMessage := do
  if buf.length < 6 then throw (.err "Insert message too short")
  let transactionIdOrOid ← recvU32At buf 1
  let (relationId, isStream, xid, off) ←
    if 5 < buf.length ∧ byteAt buf 5 = 78 then
      pure (transactionIdOrOid, false, none, 5)
    else do
      let relationId ← recvU32At buf 5
      pure (relationId, true, some transactionIdOrOid, 9)
  if buf.length ≤ off ∨ byteAt buf off ≠ 78 then
    throw (.err "Expected N marker in insert message")
  let tupleData ← parseTupleData (buf.drop (off + 1))
  return .insert relationId tupleData isStream xid

/-- parse_update_message: the marker set for the disambiguation is
`'K'` (75), `'O'` (79), `'N'` (78). -/
def parseUpdateMessage (buf : List Nat) : Except PFail ReplicationMessage := do
  if buf.length < 6 then throw (.err "Update message too short")
  let transactionIdOrOid ← recvU32At buf 1
  let (relationId, isStream, xid, off) ←
    if 5 < buf.length ∧ (byteAt buf 5 = 75 ∨ byteAt buf 5 = 79 ∨ byteAt buf 5 = 78) then
      pure (transactionIdOrOid, false, none, 5)
    else do
      let relationId ← recvU32At buf 5
      pure (relationId, true, some transactionIdOrOid, 9)
  if buf.length ≤ off then throw (.err "Update message truncated")
  let marker := byteAt buf off
  let off := off + 1
  let (keyType, oldTupleData, off) ←
    if marker = 75 ∨ marker = 79 then do
      let tupleData ← parseTupleData (buf.drop off)
      let off := off + tupleData.processedLength
      if buf.length ≤ off ∨ byteAt buf off ≠ 78 then
        throw (.err "Expected N marker after old tuple data")
      pure (some marker, some tupleData, off + 1)
    else if marker = 78 then pure (none, none, off)
    else throw (.err "Invalid marker in update message")
  let newTupleData ← parseTupleData (buf.drop off)
  return .update relationId keyType oldTupleData newTupleData isStream xid

/-- parse_delete_message: the marker set is `'K'` (75), `'O'` (79). -/
def parseDeleteMessage (buf : List Nat) : Except PFail ReplicationMessage := do
  if buf.length < 6 then throw (.err "Delete message too short")
  let transactionIdOrOid ← recvU32At buf 1
  let (relationId, isStream, xid, keyType, off) ←
    if 5 < buf.length ∧ (byteAt buf 5 = 75 ∨ byteAt buf 5 = 79) then
      pure (transactionIdOrOid, false, none, byteAt buf 5, 6)
    else do
      let relationId ← recvU32At buf 5
      if buf.length ≤ 9 then throw (.err "Delete message truncated")
      pure (relationId, true, some transactionIdOrOid, byteAt buf 9, 10)
  let tupleData ← parseTupleData (buf.drop off)
  return .delete relationId keyType tupleData isStream xid

/-- The relation-id loop of parse_truncate_message. -/
def parseTruncateIds (buf : List Nat) (off : Nat) :
    Nat → Except PFail (List Nat × Nat)
  | 0 => .ok ([], off)
  | count + 1 => do
      if buf.length < off + 4 then throw (.err "Truncate relation IDs truncated")
      let relationId ← recvU32At buf off
      let (rest, finalOff) ← parseTruncateIds buf (off + 4) count
      return (relationId :: rest, finalOff)

/-- parse_truncate_message: the streaming tie-break compares the remaining
byte count against `1 + 4 * n` for the candidate relation count. -/
def parseTruncateMessage (buf : List Nat) : Except PFail ReplicationMessage := do
  if buf.length < 10 then throw (.err "Truncate message too short")
  let xidOrNumRelations ← recvU32At buf 1
  let possibleRelationNum ← recvU32At buf 5
  let remaining := buf.length - 9
  let expectedSize := 1 + possibleRelationNum * 4
  let (isStream, xid, numRelations, off) ←
    if remaining = expectedSize then
      pure (true, some xidOrNumRelations, possibleRelationNum, 9)
    else
      pure (false, none, xidOrNumRelations, 5)
  if buf.length ≤ off then throw (.err "Truncate message truncated")
  let flags ← recvI8At buf off
  let (relationIds, _) ← parseTruncateIds buf (off + 1) numRelations
  return .truncate relationIds flags isStream xid

/-- parse_stream_start_message. -/
def parseStreamStartMessage (buf : List Nat) : Except PFail ReplicationMessage := do
  if buf.length < 6 then throw (.err "Stream start message too short")
  let xid ← recvU32At buf 1
  let firstSegment := if 5 < buf.length then byteAt buf 5 = 1 else false
  return .streamStart xid firstSegment

/-- parse_stream_stop_message. -/
def parseStreamStopMessage (_buf : List Nat) : Except PFail ReplicationMessage :=
  .ok .streamStop

/-- parse_stream_commit_message. -/
def parseStreamCommitMessage (buf : List Nat) : Except PFail ReplicationMessage := do
  if buf.length < 26 then throw (.err "Stream commit message too short")
  let xid ← recvU32At buf 1
  let flags := byteAt buf 5
  let commitLsn ← recvU64At buf 6
  let endLsn ← recvU64At buf 14
  let timestamp ← recvI64At buf 22
  return .streamCommit xid flags commitLsn endLsn timestamp

/-- parse_stream_abort_message. -/
def parseStreamAbortMessage (buf : List Nat) : Except PFail ReplicationMessage := do
  if buf.length < 9 then throw (.err "Stream abort message too short")
  let xid ← recvU32At buf 1
  let subtransactionXid ← recvU32At buf 5
  return .streamAbort xid subtransactionXid

/-- parse_wal_message: dispatch on the tag byte.  No relation catalog is
consulted anywhere in the decode. -/
def parseWalMessage (buf : List Nat) : Except PFail ReplicationMessage :=
  if buf.isEmpty then .error (.err "Empty message buffer")
  else
    match byteAt buf 0 with
    | 66 => parseBeginMessage buf
    | 67 => parseCommitMessage buf
    | 82 => parseRelationMessage buf
    | 73 => parseInsertMessage buf
    | 85 => parseUpdateMessage buf
    | 68 => parseDeleteMessage buf
    | 84 => parseTruncateMessage buf
    | 83 => parseStreamStartMessage buf
    | 69 => parseStreamStopMessage buf
    | 99 => parseStreamCommitMessage buf
    | 65 => parseStreamAbortMessage buf
    | _ => .error (.err "Unknown message type")

/-! ## Session message processing

process_replication_message of src/server.rs only mutates the state on
Relation messages; for Insert/Update/Delete it branches on whether the
relation id is cached, but both branches merely log and the function returns
Ok in every case.  process_replication_message of src/replication/server.rs
caches Relation schemas, forwards every message to the sink, and raises the
applied watermark to the received watermark when the sink succeeds. -/

/-- process_replication_message (src/server.rs): the unknown-relation branch
logs an error and still returns Ok with the state untouched. -/
def processReplicationMessageTop (st : ReplicationState) (msg : ReplicationMessage) :
    ReplicationState × Except String Unit :=
  match msg with
  | .relation r => (addRelation st r, .ok ())
  | .insert relationId _ _ _ =>
      if (getRelation st relationId).isSome then (st, .ok ()) else (st, .ok ())
  | .update relationId _ _ _ _ _ =>
      if (getRelation st relationId).isSome then (st, .ok ()) else (st, .ok ())
  | .delete relationId _ _ _ _ =>
      if (getRelation st relationId).isSome then (st, .ok ()) else (st, .ok ())
  | _ => (st, .ok ())

/-- process_replication_message (src/replication/server.rs), parameterized by
the sink call; `none` models the no-sink configuration. -/
def processReplicationMessageR (st : ReplicationState)
    (sink : Option (ReplicationMessage → Except String Unit))
    (msg : ReplicationMessage) : ReplicationState × Except String Unit :=
  let st :=
    match msg with
    | .relation r => addRelation st r
    | _ => st
  match sink with
  | some send =>
      match send msg with
      | .ok _ => (updateAppliedLsn st st.receivedLsn, .ok ())
      | .error e => (st, .error ("Event sink failed: " ++ e))
  | none => (updateAppliedLsn st st.receivedLsn, .ok ())

/-- The Insert payload of spec scenario 2: tag I, relation id 20001,
marker N, two text columns 7 and Alice. -/
def insertExampleBuf : List Nat :=
  [73, 0, 0, 78, 33, 78, 0, 2, 116, 0, 0, 0, 1, 55, 116, 0, 0, 0, 5, 65, 108, 105, 99, 101]

theorem parseWalMessage_insertExample :
    parseWalMessage insertExampleBuf =
      .ok (.insert 20001
        ⟨2, [⟨116, 1, [55]⟩, ⟨116, 5, [65, 108, 105, 99, 101]⟩], 18⟩ false none) := by
  rfl

theorem parseWalMessage_insertExample_streamed :
    parseWalMessage (73 :: beBytes 4 1337 ++ insertExampleBuf.drop 1) =
      .ok (.insert 20001
        ⟨2, [⟨116, 1, [55]⟩, ⟨116, 5, [65, 108, 105, 99, 101]⟩], 18⟩ true (some 1337)) := by
  rfl

/-! ## Helper lemmas -/

theorem drop_append_ge (xs ys : List Nat) :
    ∀ n, xs.length ≤ n → (xs ++ ys).drop n = ys.drop (n - xs.length) := by
  induction xs with
  | nil => intro n _; simp
  | cons a xs ih =>
      intro n h
      cases n with
      | zero => simp at h
      | succ n =>
          simp only [List.cons_append, List.drop_succ_cons, List.length_cons,
            Nat.succ_sub_succ]
          exact ih n (by simpa using h)

theorem remaining_concat (pre suf : List Nat) :
    (BufferWriter.mk (pre ++ suf) pre.length).remaining = suf.length := by
  simp only [BufferWriter.remaining, List.length_append]
  split <;> omega

theorem spliceAt_concat (pre suf bytes : List Nat) (_h : bytes.length ≤ suf.length) :
    spliceAt (pre ++ suf) pre.length bytes = pre ++ (bytes ++ suf.drop bytes.length) := by
  unfold spliceAt
  rw [List.take_left, drop_append_ge pre suf _ (by omega)]
  simp

theorem writeU8_concat (pre suf : List Nat) (v : Nat) (h : 1 ≤ suf.length) :
    writeU8 ⟨pre ++ suf, pre.length⟩ v =
      (.ok (), ⟨pre ++ ([v % 256] ++ suf.drop 1), pre.length + 1⟩) := by
  unfold writeU8
  rw [if_pos]
  · rw [show [v % 256] = ([v % 256] : List Nat) from rfl,
      show (1 : Nat) = ([v % 256] : List Nat).length from rfl]
    rw [spliceAt_concat pre suf [v % 256] (by simpa using h)]
  · show 1 ≤ _
    rw [remaining_concat]; exact h

theorem writeU64_concat (pre suf : List Nat) (v : Nat) (h : 8 ≤ suf.length) :
    writeU64 ⟨pre ++ suf, pre.length⟩ v =
      (.ok (), ⟨pre ++ (beBytes 8 v ++ suf.drop 8), pre.length + 8⟩) := by
  unfold writeU64
  rw [if_pos]
  · have hl : (beBytes 8 v).length = 8 := beBytes_length 8 v
    rw [show pre.length + 8 = pre.length + (beBytes 8 v).length from by rw [hl]]
    rw [spliceAt_concat pre suf _ (by rw [hl]; exact h), hl]
  · show 8 ≤ _
    rw [remaining_concat]; exact h

theorem writeI64_concat (pre suf : List Nat) (v : Int) (h : 8 ≤ suf.length) :
    writeI64 ⟨pre ++ suf, pre.length⟩ v =
      (.ok (), ⟨pre ++ (beBytes 8 ((v % (2 ^ 64 : Int)).toNat) ++ suf.drop 8),
        pre.length + 8⟩) := by
  unfold writeI64
  rw [if_pos]
  · have hl : (beBytes 8 ((v % (2 ^ 64 : Int)).toNat)).length = 8 := beBytes_length 8 _
    rw [show pre.length + 8 = pre.length + (beBytes 8 ((v % (2 ^ 64 : Int)).toNat)).length
      from by rw [hl]]
    rw [spliceAt_concat pre suf _ (by rw [hl]; exact h), hl]
  · show 8 ≤ _
    rw [remaining_concat]; exact h

/-! ## C2: the feedback frame -/

/-- The frame layout the specification describes, stated independently of the
writer: tag byte r, write position, flush position, apply position, timestamp
(two's complement), reply flag 0. -/
def specFeedbackLayout (lastLsn flushLsn applyLsn : Nat) (ts : Int) : List Nat :=
  [114] ++ beBytes 8 lastLsn ++ beBytes 8 flushLsn ++ beBytes 8 applyLsn ++
    beBytes 8 ((ts % (2 ^ 64 : Int)).toNat) ++ [0]

theorem specFeedbackLayout_length (l f a : Nat) (ts : Int) :
    (specFeedbackLayout l f a ts).length = 34 := by
  simp [specFeedbackLayout, beBytes_length]

theorem runFeedbackWrites_spec (l f a : Nat) (ts : Int) :
    runFeedbackWrites ⟨List.replicate 34 0, 0⟩ l f a ts =
      (.ok (), ⟨specFeedbackLayout l f a ts, 34⟩) := by
  have h1 : writeU8 ⟨List.replicate 34 0, 0⟩ 114 =
      (.ok (), ⟨[114] ++ List.replicate 33 0, 1⟩) := by decide
  have h2 : writeU64 ⟨[114] ++ List.replicate 33 0, 1⟩ l =
      (.ok (), ⟨[114] ++ (beBytes 8 l ++ List.replicate 25 0), 9⟩) := by
    have := writeU64_concat [114] (List.replicate 33 0) l (by simp)
    simpa using this
  have h3 : writeU64 ⟨[114] ++ (beBytes 8 l ++ List.replicate 25 0), 9⟩ f =
      (.ok (), ⟨[114] ++ (beBytes 8 l ++ (beBytes 8 f ++ List.replicate 17 0)), 17⟩) := by
    have := writeU64_concat ([114] ++ beBytes 8 l) (List.replicate 25 0) f (by simp)
    simpa [beBytes_length, List.append_assoc] using this
  have h4 : writeU64 ⟨[114] ++ (beBytes 8 l ++ (beBytes 8 f ++ List.replicate 17 0)), 17⟩ a =
      (.ok (), ⟨[114] ++ (beBytes 8 l ++ (beBytes 8 f ++ (beBytes 8 a ++
        List.replicate 9 0))), 25⟩) := by
    have := writeU64_concat ([114] ++ beBytes 8 l ++ beBytes 8 f)
      (List.replicate 17 0) a (by simp)
    simpa [beBytes_length, List.append_assoc] using this
  have h5 : writeI64 ⟨[114] ++ (beBytes 8 l ++ (beBytes 8 f ++ (beBytes 8 a ++
        List.replicate 9 0))), 25⟩ ts =
      (.ok (), ⟨[114] ++ (beBytes 8 l ++ (beBytes 8 f ++ (beBytes 8 a ++
        (beBytes 8 ((ts % (2 ^ 64 : Int)).toNat) ++ List.replicate 1 0)))), 33⟩) := by
    have := writeI64_concat ([114] ++ beBytes 8 l ++ beBytes 8 f ++ beBytes 8 a)
      (List.replicate 9 0) ts (by simp)
    simpa [beBytes_length, List.append_assoc] using this
  have h6 : writeU8 ⟨[114] ++ (beBytes 8 l ++ (beBytes 8 f ++ (beBytes 8 a ++
        (beBytes 8 ((ts % (2 ^ 64 : Int)).toNat) ++ List.replicate 1 0)))), 33⟩ 0 =
      (.ok (), ⟨[114] ++ (beBytes 8 l ++ (beBytes 8 f ++ (beBytes 8 a ++
        (beBytes 8 ((ts % (2 ^ 64 : Int)).toNat) ++ [0])))), 34⟩) := by
    have := writeU8_concat
      ([114] ++ beBytes 8 l ++ beBytes 8 f ++ beBytes 8 a ++
        beBytes 8 ((ts % (2 ^ 64 : Int)).toNat))
      (List.replicate 1 0) 0 (by simp)
    simpa [beBytes_length, List.append_assoc] using this
  unfold runFeedbackWrites
  rw [h1]; dsimp only
  rw [h2]; dsimp only
  rw [h3]; dsimp only
  rw [h4]; dsimp only
  rw [h5]; dsimp only
  rw [h6]; dsimp only
  simp [specFeedbackLayout, List.append_assoc]

theorem stepOp_preserves (s : ReplicationState) (op : SessionOp)
    (h : s.appliedLsn ≤ s.receivedLsn) :
    (stepOp s op).appliedLsn ≤ (stepOp s op).receivedLsn := by
  cases op with
  | updateReceived l =>
      simp only [stepOp, updateLsn]
      split
      · simpa using le_trans h (le_max_left _ _)
      · exact h
  | applyReceived =>
      simp only [stepOp, updateAppliedLsn]
      split
      · simp [h]
      · exact h

theorem runOps_invariant (ops : List SessionOp) :
    ∀ s : ReplicationState, s.appliedLsn ≤ s.receivedLsn →
      (ops.foldl stepOp s).appliedLsn ≤ (ops.foldl stepOp s).receivedLsn := by
  induction ops with
  | nil => intro s h; exact h
  | cons op ops ih =>
      intro s h
      exact ih (stepOp s op) (stepOp_preserves s op h)

/-- C1: starting from both watermarks 0, every interleaving of the session's
update_lsn and update_applied_lsn invocations keeps applied_lsn ≤ received_lsn
at every observable point; each step only raises the two watermarks, an
update_lsn call with a lower-or-equal (in particular zero) LSN leaves the
state unchanged, and an update_applied_lsn call that would not raise the
applied watermark leaves the state unchanged. -/
theorem c1_lsn_invariant_monotone :
    (∀ ops : List SessionOp,
        (runOps ops).appliedLsn ≤ (runOps ops).receivedLsn) ∧
    (∀ (s : ReplicationState) (op : SessionOp),
        s.receivedLsn ≤ (stepOp s op).receivedLsn ∧
        s.appliedLsn ≤ (stepOp s op).appliedLsn) ∧
    (∀ (s : ReplicationState) (l : Nat), l ≤ s.receivedLsn →
        stepOp s (.updateReceived l) = s) ∧
    (∀ s : ReplicationState, s.receivedLsn ≤ s.appliedLsn →
        stepOp s .applyReceived = s) := by
  refine ⟨fun ops => runOps_invariant ops ReplicationState.new le_rfl, ?_, ?_, ?_⟩
  · intro s op
    cases op with
    | updateReceived l =>
        simp only [stepOp, updateLsn]
        constructor <;> (split <;> simp)
    | applyReceived =>
        simp only [stepOp, updateAppliedLsn]
        constructor <;> (split <;> simp)
  · intro s l h
    obtain ⟨rel, r, a⟩ := s
    simp only [stepOp, updateLsn] at h ⊢
    split
    · simp only [ReplicationState.mk.injEq, true_and, and_true]
      omega
    · rfl
  · intro s h
    obtain ⟨rel, r, a⟩ := s
    simp only [stepOp, updateAppliedLsn] at h ⊢
    split
    · simp only [ReplicationState.mk.injEq, true_and, and_true]
      omega
    · rfl

/-- Witness for C1 at concrete inputs. -/
theorem c1_witness :
    (runOps [.updateReceived 7, .applyReceived, .updateReceived 3]).appliedLsn ≤
      (runOps [.updateReceived 7, .applyReceived, .updateReceived 3]).receivedLsn ∧
    stepOp ⟨[], 9, 2⟩ (.updateReceived 4) = ⟨[], 9, 2⟩ ∧
    stepOp ⟨[], 0, 0⟩ .applyReceived = ⟨[], 0, 0⟩ :=
  ⟨c1_lsn_invariant_monotone.1 _,
   c1_lsn_invariant_monotone.2.2.1 ⟨[], 9, 2⟩ 4 (by decide),
   c1_lsn_invariant_monotone.2.2.2 ⟨[], 0, 0⟩ (by decide)⟩

/-- C2 counterexample: the send_feedback of src/server.rs reports apply
position 0 (INVALID_XLOG_REC_PTR) instead of the session's applied watermark.
With received_lsn 5 and applied_lsn 3 the emitted frame differs from the
frame the claim requires exactly in the apply-position field. -/
theorem c2_counterexample :
    sendFeedbackLegacy ⟨[], 5, 3⟩ 0 = .ok (some (specFeedbackLayout 5 5 0 0)) ∧
    sendFeedbackLegacy ⟨[], 5, 3⟩ 0 ≠ .ok (some (specFeedbackLayout 5 5 3 0)) := by
  constructor
  · show sendFeedbackLegacy ⟨[], 5, 3⟩ 0 = _
    unfold sendFeedbackLegacy
    rw [if_neg (by decide)]
    rw [show (ReplicationState.mk [] 5 3).receivedLsn = 5 from rfl]
    rw [runFeedbackWrites_spec 5 5 0 0]
    decide
  · intro hcontra
    unfold sendFeedbackLegacy at hcontra
    rw [if_neg (by decide)] at hcontra
    rw [show (ReplicationState.mk [] 5 3).receivedLsn = 5 from rfl] at hcontra
    rw [runFeedbackWrites_spec 5 5 0 0] at hcontra
    revert hcontra
    decide

/-- C2 amended: every feedback frame is exactly 34 bytes in the order tag r,
received_lsn, flushed_lsn = received_lsn, applied_lsn position, timestamp,
reply flag.  The src/replication/server.rs session reports the session's
applied watermark in the apply field; the src/server.rs session instead
reports constant 0 there and skips the frame entirely while received_lsn is
zero. -/
theorem c2_feedback_frame_amended :
    (∀ (s : ReplicationState) (ts : Int),
        sendFeedbackReplication s ts =
          .ok (specFeedbackLayout s.receivedLsn s.receivedLsn s.appliedLsn ts)) ∧
    (∀ (l f a : Nat) (ts : Int), (specFeedbackLayout l f a ts).length = 34) ∧
    (∀ (s : ReplicationState) (ts : Int), s.receivedLsn ≠ 0 →
        sendFeedbackLegacy s ts =
          .ok (some (specFeedbackLayout s.receivedLsn s.receivedLsn 0 ts))) ∧
    (∀ (s : ReplicationState) (ts : Int), s.receivedLsn = 0 →
        sendFeedbackLegacy s ts = .ok none) := by
  refine ⟨?_, fun l f a ts => specFeedbackLayout_length l f a ts, ?_, ?_⟩
  · intro s ts
    unfold sendFeedbackReplication
    rw [runFeedbackWrites_spec]
    rfl
  · intro s ts h
    unfold sendFeedbackLegacy
    rw [if_neg h, runFeedbackWrites_spec]
    dsimp only [BufferWriter.bytesWritten]
    rw [List.take_of_length_le (by rw [specFeedbackLayout_length])]
  · intro s ts h
    unfold sendFeedbackLegacy
    rw [if_pos h]

/-- Witness for C2 at concrete inputs. -/
theorem c2_witness :
    sendFeedbackReplication ⟨[], 6, 4⟩ 10 = .ok (specFeedbackLayout 6 6 4 10) ∧
    sendFeedbackLegacy ⟨[], 6, 4⟩ 10 = .ok (some (specFeedbackLayout 6 6 0 10)) ∧
    sendFeedbackLegacy ⟨[], 0, 0⟩ 10 = .ok none :=
  ⟨c2_feedback_frame_amended.1 ⟨[], 6, 4⟩ 10,
   c2_feedback_frame_amended.2.2.1 ⟨[], 6, 4⟩ 10 (by decide),
   c2_feedback_frame_amended.2.2.2 ⟨[], 0, 0⟩ 10 (by decide)⟩

/-- C3 counterexample: an Insert payload whose relation id was never announced
by a Relation message decodes successfully (the parse consults no relation
catalog), and the session processes it returning Ok rather than rejecting it:
here against the fresh state, whose catalog is empty. -/
theorem c3_counterexample :
    getRelation ReplicationState.new 20001 = none ∧
    parseWalMessage insertExampleBuf =
      .ok (.insert 20001
        ⟨2, [⟨116, 1, [55]⟩, ⟨116, 5, [65, 108, 105, 99, 101]⟩], 18⟩ false none) ∧
    processReplicationMessageTop ReplicationState.new
        (.insert 20001
          ⟨2, [⟨116, 1, [55]⟩, ⟨116, 5, [65, 108, 105, 99, 101]⟩], 18⟩ false none) =
      (ReplicationState.new, .ok ()) := by
  exact ⟨rfl, rfl, rfl⟩

/-- C3 amended: a data message referencing an unannounced relation id is not
rejected.  The decode succeeds without consulting any catalog; the
src/server.rs session logs and returns Ok leaving the state unchanged, and
the src/replication/server.rs session forwards the message to the sink
unconditionally, succeeding whenever the sink does. -/
theorem c3_unknown_relation_amended :
    (∀ (st : ReplicationState) (rid : Nat) (td : TupleData) (b : Bool) (x : Option Nat),
        getRelation st rid = none →
        processReplicationMessageTop st (.insert rid td b x) = (st, .ok ()) ∧
        processReplicationMessageTop st (.update rid none none td b x) = (st, .ok ()) ∧
        processReplicationMessageTop st (.delete rid 75 td b x) = (st, .ok ())) ∧
    (∀ (st : ReplicationState) (sink : ReplicationMessage → Except String Unit)
        (rid : Nat) (td : TupleData) (b : Bool) (x : Option Nat),
        getRelation st rid = none →
        sink (.insert rid td b x) = .ok () →
        processReplicationMessageR st (some sink) (.insert rid td b x) =
          (updateAppliedLsn st st.receivedLsn, .ok ())) := by
  constructor
  · intro st rid td b x h
    refine ⟨?_, ?_, ?_⟩ <;>
      simp [processReplicationMessageTop, h]
  · intro st sink rid td b x _ hsink
    simp [processReplicationMessageR, hsink]

/-- Witness for C3 at concrete inputs. -/
theorem c3_witness :
    processReplicationMessageTop ReplicationState.new (.insert 5 ⟨0, [], 2⟩ false none) =
      (ReplicationState.new, .ok ()) ∧
    processReplicationMessageR ReplicationState.new (some fun _ => .ok ())
        (.insert 5 ⟨0, [], 2⟩ false none) =
      (updateAppliedLsn ReplicationState.new ReplicationState.new.receivedLsn, .ok ()) :=
  ⟨((c3_unknown_relation_amended.1 ReplicationState.new 5 ⟨0, [], 2⟩ false none
      (by decide)).1),
   c3_unknown_relation_amended.2 ReplicationState.new (fun _ => .ok ()) 5 ⟨0, [], 2⟩
      false none (by decide) rfl⟩

theorem exceptBind_ok {ε α β : Type} (a : α) (f : α → Except ε β) :
    (Except.ok a : Except ε α) >>= f = f a := rfl

theorem exceptBind_error {ε α β : Type} (e : ε) (f : α → Except ε β) :
    (Except.error e : Except ε α) >>= f = Except.error e := rfl

theorem exceptMap_ok {ε α β : Type} (g : α → β) (a : α) :
    Except.map g (Except.ok a : Except ε α) = Except.ok (g a) := rfl

theorem exceptMap_error {ε α β : Type} (g : α → β) (e : ε) :
    Except.map g (Except.error e : Except ε α) = Except.error e := rfl

theorem recvU32At_ok {buf : List Nat} {off v : Nat}
    (h : recvU32At buf off = .ok v) : v = beBytesToNat ((buf.drop off).take 4) := by
  unfold recvU32At at h
  split at h
  · cases h; rfl
  · exact Except.noConfusion h

/-- The u32 read for the first field of an I/U/D/T payload (offset 1). -/
def firstU32 (buf : List Nat) : Nat := beBytesToNat ((buf.drop 1).take 4)

/-- The u32 read at offset 5 when the streaming branch is taken. -/
def secondU32 (buf : List Nat) : Nat := beBytesToNat ((buf.drop 5).take 4)

theorem parseInsert_marker_spec (buf : List Nat) (h6 : 6 ≤ buf.length)
    (hN : byteAt buf 5 = 78) :
    parseInsertMessage buf =
      (parseTupleData (buf.drop 6)).map
        (fun td => .insert (firstU32 buf) td false none) := by
  unfold parseInsertMessage
  simp only [if_neg (show ¬buf.length < 6 by omega), pure_bind,
    show recvU32At buf 1 = .ok (firstU32 buf) from by
      unfold recvU32At firstU32; rw [if_pos (by omega)],
    exceptBind_ok,
    if_pos (show 5 < buf.length ∧ byteAt buf 5 = 78 from ⟨by omega, hN⟩),
    if_neg (show ¬(buf.length ≤ 5 ∨ byteAt buf 5 ≠ 78) by
      push_neg; exact ⟨by omega, hN⟩)]
  cases hp : parseTupleData (buf.drop (5 + 1)) with
  | error e => simp [hp, exceptMap_error, exceptBind_error]
  | ok td => simp [hp, exceptMap_ok, exceptBind_ok]

theorem parseInsert_streaming_spec (buf : List Nat) (h6 : 6 ≤ buf.length)
    (hN : byteAt buf 5 ≠ 78) (m : ReplicationMessage)
    (hok : parseInsertMessage buf = .ok m) :
    ∃ td, m = .insert (secondU32 buf) td true (some (firstU32 buf)) := by
  unfold parseInsertMessage at hok
  simp only [if_neg (show ¬buf.length < 6 by omega), pure_bind,
    show recvU32At buf 1 = .ok (firstU32 buf) from by
      unfold recvU32At firstU32; rw [if_pos (by omega)],
    exceptBind_ok,
    if_neg (show ¬(5 < buf.length ∧ byteAt buf 5 = 78) from fun hc => hN hc.2)] at hok
  cases hr : recvU32At buf 5 with
  | error e => rw [hr, exceptBind_error] at hok; exact Except.noConfusion hok
  | ok rid =>
      rw [hr, exceptBind_ok] at hok
      try simp only [pure_bind] at hok
      by_cases hc : buf.length ≤ 9 ∨ byteAt buf 9 ≠ 78
      · rw [if_pos hc] at hok
        exact Except.noConfusion hok
      · rw [if_neg hc] at hok
        cases hp : parseTupleData (buf.drop (9 + 1)) with
        | error e => rw [hp, exceptBind_error] at hok; exact Except.noConfusion hok
        | ok td =>
            rw [hp, exceptBind_ok] at hok
            try simp only [pure_bind] at hok
            cases hok
            exact ⟨td, by rw [recvU32At_ok hr]; rfl⟩

theorem parseUpdate_marker_spec (buf : List Nat) (h6 : 6 ≤ buf.length)
    (hM : byteAt buf 5 = 75 ∨ byteAt buf 5 = 79 ∨ byteAt buf 5 = 78)
    (m : ReplicationMessage) (hok : parseUpdateMessage buf = .ok m) :
    ∃ kt old new, m = .update (firstU32 buf) kt old new false none := by
  unfold parseUpdateMessage at hok
  simp only [if_neg (show ¬buf.length < 6 by omega), pure_bind,
    show recvU32At buf 1 = .ok (firstU32 buf) from by
      unfold recvU32At firstU32; rw [if_pos (by omega)],
    exceptBind_ok,
    if_pos (show 5 < buf.length ∧
      (byteAt buf 5 = 75 ∨ byteAt buf 5 = 79 ∨ byteAt buf 5 = 78) from ⟨by omega, hM⟩),
    if_neg (show ¬buf.length ≤ 5 by omega)] at hok
  by_cases hKO : byteAt buf 5 = 75 ∨ byteAt buf 5 = 79
  · rw [if_pos hKO] at hok
    cases hp : parseTupleData (buf.drop (5 + 1)) with
    | error e => rw [hp, exceptBind_error] at hok; exact Except.noConfusion hok
    | ok old =>
        rw [hp, exceptBind_ok] at hok
        by_cases hc : buf.length ≤ 5 + 1 + old.processedLength ∨
            byteAt buf (5 + 1 + old.processedLength) ≠ 78
        · rw [if_pos hc] at hok; exact Except.noConfusion hok
        · rw [if_neg hc] at hok
          try simp only [pure_bind] at hok
          cases hp2 : parseTupleData (buf.drop (5 + 1 + old.processedLength + 1)) with
          | error e => rw [hp2, exceptBind_error] at hok; exact Except.noConfusion hok
          | ok newTd =>
              rw [hp2, exceptBind_ok] at hok
              try simp only [pure_bind] at hok
              cases hok
              exact ⟨some (byteAt buf 5), some old, newTd, rfl⟩
  · have hNonly : byteAt buf 5 = 78 := by tauto
    rw [if_neg hKO, if_pos hNonly] at hok
    try simp only [pure_bind] at hok
    cases hp : parseTupleData (buf.drop (5 + 1)) with
    | error e => rw [hp, exceptBind_error] at hok; exact Except.noConfusion hok
    | ok newTd =>
        rw [hp, exceptBind_ok] at hok
        try simp only [pure_bind] at hok
        cases hok
        exact ⟨none, none, newTd, rfl⟩

theorem parseUpdate_streaming_spec (buf : List Nat) (h6 : 6 ≤ buf.length)
    (hM : ¬(byteAt buf 5 = 75 ∨ byteAt buf 5 = 79 ∨ byteAt buf 5 = 78))
    (m : ReplicationMessage) (hok : parseUpdateMessage buf = .ok m) :
    ∃ kt old new, m = .update (secondU32 buf) kt old new true (some (firstU32 buf)) := by
  unfold parseUpdateMessage at hok
  simp only [if_neg (show ¬buf.length < 6 by omega), pure_bind,
    show recvU32At buf 1 = .ok (firstU32 buf) from by
      unfold recvU32At firstU32; rw [if_pos (by omega)],
    exceptBind_ok,
    if_neg (show ¬(5 < buf.length ∧
      (byteAt buf 5 = 75 ∨ byteAt buf 5 = 79 ∨ byteAt buf 5 = 78)) from
      fun hc => hM hc.2)] at hok
  cases hr : recvU32At buf 5 with
  | error e => rw [hr, exceptBind_error] at hok; exact Except.noConfusion hok
  | ok rid =>
      rw [hr, exceptBind_ok] at hok
      try simp only [pure_bind] at hok
      by_cases h9 : buf.length ≤ 9
      · rw [if_pos h9] at hok; exact Except.noConfusion hok
      · rw [if_neg h9] at hok
        by_cases hKO : byteAt buf 9 = 75 ∨ byteAt buf 9 = 79
        · rw [if_pos hKO] at hok
          cases hp : parseTupleData (buf.drop (9 + 1)) with
          | error e => rw [hp, exceptBind_error] at hok; exact Except.noConfusion hok
          | ok old =>
              rw [hp, exceptBind_ok] at hok
              by_cases hc : buf.length ≤ 9 + 1 + old.processedLength ∨
                  byteAt buf (9 + 1 + old.processedLength) ≠ 78
              · rw [if_pos hc] at hok; exact Except.noConfusion hok
              · rw [if_neg hc] at hok
                try simp only [pure_bind] at hok
                cases hp2 : parseTupleData (buf.drop (9 + 1 + old.processedLength + 1)) with
                | error e =>
                    rw [hp2, exceptBind_error] at hok; exact Except.noConfusion hok
                | ok newTd =>
                    rw [hp2, exceptBind_ok] at hok
                    try simp only [pure_bind] at hok
                    cases hok
                    exact ⟨some (byteAt buf 9), some old, newTd, by
                      rw [recvU32At_ok hr]; rfl⟩
        · by_cases hNcase : byteAt buf 9 = 78
          · rw [if_neg hKO, if_pos hNcase] at hok
            try simp only [pure_bind] at hok
            cases hp : parseTupleData (buf.drop (9 + 1)) with
            | error e => rw [hp, exceptBind_error] at hok; exact Except.noConfusion hok
            | ok newTd =>
                rw [hp, exceptBind_ok] at hok
                try simp only [pure_bind] at hok
                cases hok
                exact ⟨none, none, newTd, by rw [recvU32At_ok hr]; rfl⟩
          · rw [if_neg hKO, if_neg hNcase] at hok
            exact Except.noConfusion hok

theorem parseDelete_marker_spec (buf : List Nat) (h6 : 6 ≤ buf.length)
    (hM : byteAt buf 5 = 75 ∨ byteAt buf 5 = 79)
    (m : ReplicationMessage) (hok : parseDeleteMessage buf = .ok m) :
    ∃ td, m = .delete (firstU32 buf) (byteAt buf 5) td false none := by
  unfold parseDeleteMessage at hok
  simp only [if_neg (show ¬buf.length < 6 by omega), pure_bind,
    show recvU32At buf 1 = .ok (firstU32 buf) from by
      unfold recvU32At firstU32; rw [if_pos (by omega)],
    exceptBind_ok,
    if_pos (show 5 < buf.length ∧ (byteAt buf 5 = 75 ∨ byteAt buf 5 = 79) from
      ⟨by omega, hM⟩)] at hok
  cases hp : parseTupleData (buf.drop 6) with
  | error e => rw [hp, exceptBind_error] at hok; exact Except.noConfusion hok
  | ok td =>
      rw [hp, exceptBind_ok] at hok
      try simp only [pure_bind] at hok
      cases hok
      exact ⟨td, rfl⟩

theorem parseDelete_streaming_spec (buf : List Nat) (h6 : 6 ≤ buf.length)
    (hM : ¬(byteAt buf 5 = 75 ∨ byteAt buf 5 = 79))
    (m : ReplicationMessage) (hok : parseDeleteMessage buf = .ok m) :
    ∃ td, m = .delete (secondU32 buf) (byteAt buf 9) td true (some (firstU32 buf)) := by
  unfold parseDeleteMessage at hok
  simp only [if_neg (show ¬buf.length < 6 by omega), pure_bind,
    show recvU32At buf 1 = .ok (firstU32 buf) from by
      unfold recvU32At firstU32; rw [if_pos (by omega)],
    exceptBind_ok,
    if_neg (show ¬(5 < buf.length ∧ (byteAt buf 5 = 75 ∨ byteAt buf 5 = 79)) from
      fun hc => hM hc.2)] at hok
  cases hr : recvU32At buf 5 with
  | error e => rw [hr, exceptBind_error] at hok; exact Except.noConfusion hok
  | ok rid =>
      rw [hr, exceptBind_ok] at hok
      try simp only [pure_bind] at hok
      by_cases h9 : buf.length ≤ 9
      · rw [if_pos h9] at hok; exact Except.noConfusion hok
      · rw [if_neg h9] at hok
        try simp only [pure_bind] at hok
        cases hp : parseTupleData (buf.drop 10) with
        | error e => rw [hp, exceptBind_error] at hok; exact Except.noConfusion hok
        | ok td =>
            rw [hp, exceptBind_ok] at hok
            try simp only [pure_bind] at hok
            cases hok
            exact ⟨td, by rw [recvU32At_ok hr]; rfl⟩

theorem parseTruncateIds_length (buf : List Nat) :
    ∀ (count off : Nat) (ids : List Nat) (off' : Nat),
      parseTruncateIds buf off count = .ok (ids, off') → ids.length = count := by
  intro count
  induction count with
  | zero =>
      intro off ids off' h
      unfold parseTruncateIds at h
      cases h
      rfl
  | succ n ih =>
      intro off ids off' h
      unfold parseTruncateIds at h
      by_cases hb : buf.length < off + 4
      · rw [if_pos hb] at h; exact Except.noConfusion h
      · rw [if_neg hb] at h
        simp only [pure_bind] at h
        cases hr : recvU32At buf off with
        | error e => rw [hr, exceptBind_error] at h; exact Except.noConfusion h
        | ok rid =>
            rw [hr, exceptBind_ok] at h
            cases hrec : parseTruncateIds buf (off + 4) n with
            | error e => rw [hrec, exceptBind_error] at h; exact Except.noConfusion h
            | ok p =>
                rw [hrec, exceptBind_ok] at h
                obtain ⟨rest, finalOff⟩ := p
                try simp only [pure_bind] at h
                cases h
                simpa using ih (off + 4) rest off' hrec

theorem parseTruncate_streaming_spec (buf : List Nat) (h10 : 10 ≤ buf.length)
    (hTie : buf.length - 9 = 1 + secondU32 buf * 4)
    (m : ReplicationMessage) (hok : parseTruncateMessage buf = .ok m) :
    ∃ ids flags, m = .truncate ids flags true (some (firstU32 buf)) ∧
      ids.length = secondU32 buf := by
  unfold parseTruncateMessage at hok
  simp only [if_neg (show ¬buf.length < 10 by omega), pure_bind,
    show recvU32At buf 1 = .ok (firstU32 buf) from by
      unfold recvU32At firstU32; rw [if_pos (by omega)],
    show recvU32At buf 5 = .ok (secondU32 buf) from by
      unfold recvU32At secondU32; rw [if_pos (by omega)],
    exceptBind_ok, if_pos hTie,
    if_neg (show ¬buf.length ≤ 9 by omega)] at hok
  cases hf : recvI8At buf 9 with
  | error e => rw [hf, exceptBind_error] at hok; exact Except.noConfusion hok
  | ok flags =>
      rw [hf, exceptBind_ok] at hok
      cases hids : parseTruncateIds buf 10 (secondU32 buf) with
      | error e => rw [hids, exceptBind_error] at hok; exact Except.noConfusion hok
      | ok p =>
          rw [hids, exceptBind_ok] at hok
          obtain ⟨ids, off'⟩ := p
          try simp only [pure_bind] at hok
          cases hok
          exact ⟨ids, flags, rfl, parseTruncateIds_length buf _ 10 ids off' hids⟩

theorem parseTruncate_nonStreaming_spec (buf : List Nat) (h10 : 10 ≤ buf.length)
    (hTie : buf.length - 9 ≠ 1 + secondU32 buf * 4)
    (m : ReplicationMessage) (hok : parseTruncateMessage buf = .ok m) :
    ∃ ids flags, m = .truncate ids flags false none ∧
      ids.length = firstU32 buf := by
  unfold parseTruncateMessage at hok
  simp only [if_neg (show ¬buf.length < 10 by omega), pure_bind,
    show recvU32At buf 1 = .ok (firstU32 buf) from by
      unfold recvU32At firstU32; rw [if_pos (by omega)],
    show recvU32At buf 5 = .ok (secondU32 buf) from by
      unfold recvU32At secondU32; rw [if_pos (by omega)],
    exceptBind_ok, if_neg hTie,
    if_neg (show ¬buf.length ≤ 5 by omega)] at hok
  cases hf : recvI8At buf 5 with
  | error e => rw [hf, exceptBind_error] at hok; exact Except.noConfusion hok
  | ok flags =>
      rw [hf, exceptBind_ok] at hok
      cases hids : parseTruncateIds buf 6 (firstU32 buf) with
      | error e => rw [hids, exceptBind_error] at hok; exact Except.noConfusion hok
      | ok p =>
          rw [hids, exceptBind_ok] at hok
          obtain ⟨ids, off'⟩ := p
          try simp only [pure_bind] at hok
          cases hok
          exact ⟨ids, flags, rfl, parseTruncateIds_length buf _ 6 ids off' hids⟩

/-- C6: the streaming disambiguation reads a u32 after the tag and inspects
the next byte.  A tuple-section marker there (N for Insert; K, O or N for
Update; K or O for Delete) makes the u32 the relation id of a non-streaming
message with no xid; otherwise the u32 is the xid, a further u32 relation id
is read, and the message is streaming.  For Truncate the tie-break is the
remaining-bytes equality 1 + 4n against the candidate relation count. -/
theorem c6_streaming_disambiguation :
    (∀ buf : List Nat, 6 ≤ buf.length → byteAt buf 5 = 78 →
        parseInsertMessage buf =
          (parseTupleData (buf.drop 6)).map
            (fun td => .insert (firstU32 buf) td false none)) ∧
    (∀ buf : List Nat, 6 ≤ buf.length → byteAt buf 5 ≠ 78 →
        ∀ m, parseInsertMessage buf = .ok m →
          ∃ td, m = .insert (secondU32 buf) td true (some (firstU32 buf))) ∧
    (∀ buf : List Nat, 6 ≤ buf.length →
        byteAt buf 5 = 75 ∨ byteAt buf 5 = 79 ∨ byteAt buf 5 = 78 →
        ∀ m, parseUpdateMessage buf = .ok m →
          ∃ kt old new, m = .update (firstU32 buf) kt old new false none) ∧
    (∀ buf : List Nat, 6 ≤ buf.length →
        ¬(byteAt buf 5 = 75 ∨ byteAt buf 5 = 79 ∨ byteAt buf 5 = 78) →
        ∀ m, parseUpdateMessage buf = .ok m →
          ∃ kt old new, m = .update (secondU32 buf) kt old new true
            (some (firstU32 buf))) ∧
    (∀ buf : List Nat, 6 ≤ buf.length → byteAt buf 5 = 75 ∨ byteAt buf 5 = 79 →
        ∀ m, parseDeleteMessage buf = .ok m →
          ∃ td, m = .delete (firstU32 buf) (byteAt buf 5) td false none) ∧
    (∀ buf : List Nat, 6 ≤ buf.length → ¬(byteAt buf 5 = 75 ∨ byteAt buf 5 = 79) →
        ∀ m, parseDeleteMessage buf = .ok m →
          ∃ td, m = .delete (secondU32 buf) (byteAt buf 9) td true
            (some (firstU32 buf))) ∧
    (∀ buf : List Nat, 10 ≤ buf.length →
        buf.length - 9 = 1 + secondU32 buf * 4 →
        ∀ m, parseTruncateMessage buf = .ok m →
          ∃ ids flags, m = .truncate ids flags true (some (firstU32 buf)) ∧
            ids.length = secondU32 buf) ∧
    (∀ buf : List Nat, 10 ≤ buf.length →
        buf.length - 9 ≠ 1 + secondU32 buf * 4 →
        ∀ m, parseTruncateMessage buf = .ok m →
          ∃ ids flags, m = .truncate ids flags false none ∧
            ids.length = firstU32 buf) :=
  ⟨fun buf h6 hN => parseInsert_marker_spec buf h6 hN,
   fun buf h6 hN m hok => parseInsert_streaming_spec buf h6 hN m hok,
   fun buf h6 hM m hok => parseUpdate_marker_spec buf h6 hM m hok,
   fun buf h6 hM m hok => parseUpdate_streaming_spec buf h6 hM m hok,
   fun buf h6 hM m hok => parseDelete_marker_spec buf h6 hM m hok,
   fun buf h6 hM m hok => parseDelete_streaming_spec buf h6 hM m hok,
   fun buf h10 hTie m hok => parseTruncate_streaming_spec buf h10 hTie m hok,
   fun buf h10 hTie m hok => parseTruncate_nonStreaming_spec buf h10 hTie m hok⟩

/-- The streamed variant of the example Insert payload: xid 1337 precedes the
relation id. -/
def streamInsertBuf : List Nat := 73 :: (beBytes 4 1337 ++ insertExampleBuf.drop 1)

/-- A streamed Truncate payload: xid 1337, one relation, flags 0, id 20001. -/
def streamTruncateBuf : List Nat :=
  [84, 0, 0, 5, 57, 0, 0, 0, 1, 0, 0, 0, 78, 33]

/-- Witness for C6 at concrete inputs. -/
theorem c6_witness :
    (parseInsertMessage insertExampleBuf =
      (parseTupleData (insertExampleBuf.drop 6)).map
        (fun td => .insert (firstU32 insertExampleBuf) td false none)) ∧
    (∃ td, (ReplicationMessage.insert 20001
        ⟨2, [⟨116, 1, [55]⟩, ⟨116, 5, [65, 108, 105, 99, 101]⟩], 18⟩ true (some 1337)) =
      .insert (secondU32 streamInsertBuf) td true (some (firstU32 streamInsertBuf))) ∧
    (∃ ids flags, (ReplicationMessage.truncate [20001] 0 true (some 1337)) =
      .truncate ids flags true (some (firstU32 streamTruncateBuf)) ∧
        ids.length = secondU32 streamTruncateBuf) :=
  ⟨c6_streaming_disambiguation.1 insertExampleBuf (by decide) (by decide),
   c6_streaming_disambiguation.2.1 streamInsertBuf (by decide) (by decide) _ (by rfl),
   c6_streaming_disambiguation.2.2.2.2.2.2.1 streamTruncateBuf (by decide) (by decide)
     _ (by rfl)⟩

/-! ## C7: TupleData decoding -/

/-- The wire form of one tuple cell: a kind byte, and for text cells the i32
length followed by the bytes. -/
def serializeColumn (c : ColumnData) : List Nat :=
  if c.dataType = 110 then [110]
  else if c.dataType = 117 then [117]
  else 116 :: (beBytes 4 c.length.toNat ++ c.data)

/-- Cells the decoder can produce: NULL, unchanged-TOAST, or text with a
consistent non-negative length that fits an i32. -/
def wellFormedColumn (c : ColumnData) : Prop :=
  c = ⟨110, 0, []⟩ ∨ c = ⟨117, 0, []⟩ ∨
    (c.dataType = 116 ∧ c.length = (c.data.length : Int) ∧ c.data.length < 2 ^ 31)

theorem byteAt_append (pre l : List Nat) : byteAt (pre ++ l) pre.length = l.headD 0 := by
  unfold byteAt
  rw [List.drop_left]

theorem takePrefixEq (pre l : List Nat) (n : Nat) (h : pre.length = n) :
    (pre ++ l).take n = pre := by
  subst h; exact List.take_left pre l

theorem dropPrefixEq (pre l : List Nat) (n : Nat) (h : pre.length = n) :
    (pre ++ l).drop n = l := by
  subst h; exact List.drop_left pre l

/-- The concatenated wire form of a cell sequence. -/
def serializeColumns : List ColumnData → List Nat
  | [] => []
  | c :: cs => serializeColumn c ++ serializeColumns cs

theorem parseTupleColumns_step_one (buf pre tail : List Nat) (b : Nat) (count : Nat)
    (hb : b = 110 ∨ b = 117) (hbuf : buf = pre ++ (b :: tail)) :
    parseTupleColumns buf pre.length (count + 1) =
      (parseTupleColumns buf (pre.length + 1) count).map
        (fun p => (⟨b, 0, []⟩ :: p.1, p.2)) := by
  have hlen : buf.length = pre.length + (1 + tail.length) := by
    subst hbuf; simp; omega
  have hbyte : byteAt buf pre.length = b := by
    subst hbuf
    rw [byteAt_append]
    rfl
  conv_lhs => rw [parseTupleColumns]
  rw [if_neg (by omega)]
  rcases hb with hb | hb <;> subst hb <;>
    simp only [pure_bind, hbyte] <;>
    [cases hrec : parseTupleColumns buf (pre.length + 1) count;
     cases hrec : parseTupleColumns buf (pre.length + 1) count] <;>
    simp [exceptBind_error, exceptBind_ok, exceptMap_error, exceptMap_ok, Except.map]

theorem parseTupleColumns_step_text (buf pre data tail : List Nat) (count : Nat)
    (hn : data.length < 2 ^ 31)
    (hbuf : buf = pre ++ (116 :: (beBytes 4 data.length ++ (data ++ tail)))) :
    parseTupleColumns buf pre.length (count + 1) =
      (parseTupleColumns buf (pre.length + 1 + 4 + data.length) count).map
        (fun p => (⟨116, (data.length : Int), data⟩ :: p.1, p.2)) := by
  have hlen : buf.length = pre.length + (1 + (4 + (data.length + tail.length))) := by
    subst hbuf; simp [beBytes_length]; omega
  have hbyte : byteAt buf pre.length = 116 := by
    subst hbuf
    rw [byteAt_append]
    rfl
  have hdrop1 : buf.drop (pre.length + 1) = beBytes 4 data.length ++ (data ++ tail) := by
    subst hbuf
    rw [show pre ++ (116 :: (beBytes 4 data.length ++ (data ++ tail))) =
      (pre ++ [116]) ++ (beBytes 4 data.length ++ (data ++ tail)) from by simp]
    exact dropPrefixEq _ _ _ (by simp)
  have hrecv : recvI32At buf (pre.length + 1) = .ok ((data.length : Int)) := by
    unfold recvI32At
    rw [if_pos (by omega)]
    rw [hdrop1, takePrefixEq _ _ 4 (beBytes_length 4 _), beBytesToNat_beBytes]
    rw [Nat.mod_eq_of_lt (lt_trans hn (by norm_num))]
    unfold toSigned
    rw [if_pos (by simpa using hn)]
  have hcast : ((data.length : Int)) < (2 ^ 64 : Int) := by
    have : data.length < 2 ^ 64 := lt_trans hn (by norm_num)
    exact_mod_cast this
  have husize : (((data.length : Int)) % (2 ^ 64 : Int)).toNat = data.length := by
    rw [Int.emod_eq_of_lt (by positivity) hcast]
    simp
  have hdrop5 : buf.drop (pre.length + 1 + 4) = data ++ tail := by
    subst hbuf
    rw [show pre ++ (116 :: (beBytes 4 data.length ++ (data ++ tail))) =
      ((pre ++ [116]) ++ beBytes 4 data.length) ++ (data ++ tail) from by simp]
    exact dropPrefixEq _ _ _ (by simp [beBytes_length])
  conv_lhs => rw [parseTupleColumns]
  rw [if_neg (by omega)]
  simp only [pure_bind, hbyte,
    if_neg (show (116 : Nat) ≠ 110 by decide),
    if_neg (show (116 : Nat) ≠ 117 by decide), if_pos rfl,
    if_neg (show ¬buf.length < pre.length + 1 + 4 by omega), hrecv, exceptBind_ok,
    husize]
  rw [if_neg (show ¬buf.length < pre.length + 1 + 4 + data.length by omega)]
  simp only [pure_bind, hdrop5, takePrefixEq data tail _ rfl]
  cases hrec : parseTupleColumns buf (pre.length + 1 + 4 + data.length) count with
  | error e => simp [exceptBind_error, exceptMap_error, Except.map]
  | ok p => simp [exceptBind_ok, exceptMap_ok, Except.map]

theorem parseTupleColumns_roundtrip :
    ∀ (cols : List ColumnData), (∀ c ∈ cols, wellFormedColumn c) →
    ∀ (buf pre rest : List Nat),
      buf = pre ++ (serializeColumns cols ++ rest) →
      parseTupleColumns buf pre.length cols.length =
        .ok (cols, pre.length + (serializeColumns cols).length) := by
  intro cols
  induction cols with
  | nil =>
      intro _ buf pre rest _
      unfold parseTupleColumns
      simp [serializeColumns]
  | cons c cs ih =>
      intro hwf buf pre rest hbuf
      have hc := hwf c (List.mem_cons_self _ _)
      have hcs : ∀ x ∈ cs, wellFormedColumn x :=
        fun x hx => hwf x (List.mem_cons_of_mem _ hx)
      rcases hc with hc | hc | hc
      · subst hc
        rw [show serializeColumns (⟨110, 0, []⟩ :: cs) =
          [110] ++ serializeColumns cs from rfl] at hbuf ⊢
        simp only [List.length_cons]
        rw [parseTupleColumns_step_one buf pre (serializeColumns cs ++ rest) 110
          cs.length (Or.inl rfl) (by rw [hbuf]; simp)]
        rw [show pre.length + 1 = (pre ++ [110]).length from by simp]
        rw [ih hcs buf (pre ++ [110]) rest (by rw [hbuf]; simp)]
        rw [exceptMap_ok]
        simp [Nat.add_assoc]
        omega
      · subst hc
        rw [show serializeColumns (⟨117, 0, []⟩ :: cs) =
          [117] ++ serializeColumns cs from rfl] at hbuf ⊢
        simp only [List.length_cons]
        rw [parseTupleColumns_step_one buf pre (serializeColumns cs ++ rest) 117
          cs.length (Or.inr rfl) (by rw [hbuf]; simp)]
        rw [show pre.length + 1 = (pre ++ [117]).length from by simp]
        rw [ih hcs buf (pre ++ [117]) rest (by rw [hbuf]; simp)]
        rw [exceptMap_ok]
        simp [Nat.add_assoc]
        omega
      · obtain ⟨dt, len, data⟩ := c
        obtain ⟨hdt, hlen, hsize⟩ := hc
        simp only at hdt hlen hsize
        subst hdt
        subst hlen
        have hser : serializeColumns (⟨116, (data.length : Int), data⟩ :: cs) =
            (116 :: (beBytes 4 data.length ++ data)) ++ serializeColumns cs := by
          simp [serializeColumns, serializeColumn]
        rw [hser] at hbuf ⊢
        simp only [List.length_cons]
        rw [parseTupleColumns_step_text buf pre data (serializeColumns cs ++ rest)
          cs.length hsize (by rw [hbuf]; simp)]
        rw [show pre.length + 1 + 4 + data.length =
          (pre ++ (116 :: (beBytes 4 data.length ++ data))).length from by
            simp [beBytes_length]; omega]
        rw [ih hcs buf (pre ++ (116 :: (beBytes 4 data.length ++ data))) rest
          (by rw [hbuf]; simp)]
        rw [exceptMap_ok]
        simp [beBytes_length]
        omega

instance : DecidablePred wellFormedColumn := fun c => by
  unfold wellFormedColumn; infer_instance

theorem parseTupleData_roundtrip (cols : List ColumnData)
    (hwf : ∀ c ∈ cols, wellFormedColumn c) (hcount : cols.length < 2 ^ 15)
    (rest : List Nat) :
    parseTupleData (beBytes 2 cols.length ++ (serializeColumns cols ++ rest)) =
      .ok ⟨(cols.length : Int), cols, 2 + (serializeColumns cols).length⟩ := by
  have hlen : (beBytes 2 cols.length ++ (serializeColumns cols ++ rest)).length =
      2 + ((serializeColumns cols).length + rest.length) := by
    simp [beBytes_length]
  unfold parseTupleData
  rw [if_neg (by omega)]
  have hc16 : recvI16At (beBytes 2 cols.length ++ (serializeColumns cols ++ rest)) 0 =
      .ok ((cols.length : Int)) := by
    unfold recvI16At
    rw [if_pos (by omega)]
    rw [List.drop_zero, takePrefixEq _ _ 2 (beBytes_length 2 _), beBytesToNat_beBytes]
    rw [Nat.mod_eq_of_lt (lt_trans hcount (by norm_num))]
    unfold toSigned
    rw [if_pos (by simpa using hcount)]
  simp only [pure_bind, hc16, exceptBind_ok, Int.toNat_natCast]
  have hrt := parseTupleColumns_roundtrip cols hwf _ (beBytes 2 cols.length) rest rfl
  rw [beBytes_length] at hrt
  rw [hrt, exceptBind_ok]
  rfl

theorem parseTupleData_zeroCount (buf : List Nat) (h2 : buf.take 2 = [0, 0]) :
    parseTupleData buf = .ok ⟨0, [], 2⟩ := by
  have hlen : 2 ≤ buf.length := by
    have := congrArg List.length h2
    simp [List.length_take] at this
    omega
  unfold parseTupleData
  rw [if_neg (by omega)]
  have hc : recvI16At buf 0 = .ok 0 := by
    unfold recvI16At
    rw [if_pos (by omega)]
    rw [List.drop_zero, h2]
    decide
  simp only [pure_bind, hc, exceptBind_ok]
  rfl

theorem parseTupleColumns_badKind (buf : List Nat) (off count : Nat)
    (hofflt : off < buf.length) (h1 : byteAt buf off ≠ 110)
    (h2 : byteAt buf off ≠ 117) (h3 : byteAt buf off ≠ 116) :
    parseTupleColumns buf off (count + 1) =
      .error (.err "Unknown tuple data type") := by
  conv_lhs => rw [parseTupleColumns]
  rw [if_neg (by omega)]
  simp only [pure_bind, if_neg h1, if_neg h2, if_neg h3]
  rfl

/-- C7: TupleData decoding reads an i16 column count and per column a kind
byte; n and u cells consume only the kind byte, t cells carry an i32 length
and that many bytes, any other kind byte is an error; a zero count decodes to
the empty column list consuming only the count field; the result records the
total number of consumed bytes (the count field plus each cell's wire size,
shown by parsing back a serialized cell sequence). -/
theorem c7_tuple_data :
    (∀ buf : List Nat, buf.take 2 = [0, 0] → parseTupleData buf = .ok ⟨0, [], 2⟩) ∧
    (∀ cols : List ColumnData, (∀ c ∈ cols, wellFormedColumn c) →
        cols.length < 2 ^ 15 → ∀ rest : List Nat,
        parseTupleData (beBytes 2 cols.length ++ (serializeColumns cols ++ rest)) =
          .ok ⟨(cols.length : Int), cols, 2 + (serializeColumns cols).length⟩) ∧
    (∀ (buf : List Nat) (off count : Nat), off < buf.length →
        byteAt buf off ≠ 110 → byteAt buf off ≠ 117 → byteAt buf off ≠ 116 →
        parseTupleColumns buf off (count + 1) =
          .error (.err "Unknown tuple data type")) :=
  ⟨parseTupleData_zeroCount,
   parseTupleData_roundtrip,
   parseTupleColumns_badKind⟩

/-- Witness for C7 at concrete inputs. -/
theorem c7_witness :
    parseTupleData [0, 0] = .ok ⟨0, [], 2⟩ ∧
    parseTupleData (beBytes 2 ([⟨110, 0, []⟩, ⟨116, 1, [55]⟩] : List ColumnData).length ++
        (serializeColumns [⟨110, 0, []⟩, ⟨116, 1, [55]⟩] ++ [99])) =
      .ok ⟨(([⟨110, 0, []⟩, ⟨116, 1, [55]⟩] : List ColumnData).length : Int),
        [⟨110, 0, []⟩, ⟨116, 1, [55]⟩],
        2 + (serializeColumns [⟨110, 0, []⟩, ⟨116, 1, [55]⟩]).length⟩ ∧
    parseTupleColumns [120] 0 (0 + 1) = .error (.err "Unknown tuple data type") :=
  ⟨c7_tuple_data.1 [0, 0] (by decide),
   c7_tuple_data.2.1 [⟨110, 0, []⟩, ⟨116, 1, [55]⟩] (by decide) (by decide) [99],
   c7_tuple_data.2.2 [120] 0 0 (by decide) (by decide) (by decide) (by decide)⟩

/-! ## C8: length-prefixed string reads -/

theorem readLengthPrefixedString_success (r : BufferReader) (len : Int)
    (r' : BufferReader) (hread : readI32 r = (.ok len, r')) (hnn : 0 ≤ len)
    (havail : r'.hasBytes len.toNat) :
    readLengthPrefixedString r =
      (.ok ((r'.buffer.drop r'.position).take len.toNat),
        ⟨r'.buffer, r'.position + len.toNat⟩) := by
  unfold readLengthPrefixedString
  rw [hread]
  dsimp only
  rw [if_neg (by omega)]
  rw [if_pos havail]

theorem readLengthPrefixedString_negative (r : BufferReader) (len : Int)
    (r' : BufferReader) (hread : readI32 r = (.ok len, r')) (hneg : len < 0) :
    readLengthPrefixedString r = (.error "Negative string length", r') := by
  unfold readLengthPrefixedString
  rw [hread]
  dsimp only
  rw [if_pos hneg]

theorem readLengthPrefixedString_zero (r : BufferReader) (r' : BufferReader)
    (hread : readI32 r = (.ok 0, r')) :
    readLengthPrefixedString r = (.ok [], r') := by
  have h := readLengthPrefixedString_success r 0 r' hread le_rfl (by
    show BufferReader.hasBytes r' (Int.toNat 0)
    unfold BufferReader.hasBytes
    simp)
  rw [h]
  simp

/-- C8 counterexample: a declared length of 1 MiB + 1 with that many bytes
available decodes successfully; no cap exists in the code. -/
theorem c8_counterexample :
    readLengthPrefixedString
        ⟨[0, 16, 0, 1] ++ List.replicate 1048577 65, 0⟩ =
      (.ok (List.replicate 1048577 65),
        ⟨[0, 16, 0, 1] ++ List.replicate 1048577 65, 4 + 1048577⟩) := by
  have hlen : ([0, 16, 0, 1] ++ List.replicate 1048577 65 : List Nat).length =
      1048581 := by
    rw [List.length_append, List.length_replicate]
    decide
  have hread : readI32 ⟨[0, 16, 0, 1] ++ List.replicate 1048577 65, 0⟩ =
      (.ok 1048577, ⟨[0, 16, 0, 1] ++ List.replicate 1048577 65, 0 + 4⟩) := by
    unfold readI32
    rw [if_pos (by
      show (4 : Nat) ≤ _
      rw [reader_remaining_eq, hlen]
      decide)]
    refine congrArg₂ Prod.mk ?_ rfl
    rw [List.drop_zero, takePrefixEq [0, 16, 0, 1] _ 4 rfl]
    decide
  have h := readLengthPrefixedString_success _ 1048577 _ hread (by norm_num)
    (by
      show (1048577 : Int).toNat ≤ _
      rw [reader_remaining_eq, hlen]
      decide)
  rw [h]
  refine congrArg₂ Prod.mk ?_ ?_
  · rw [show ((1048577 : Int)).toNat = 1048577 from rfl]
    rw [dropPrefixEq [0, 16, 0, 1] _ (0 + 4) rfl]
    rw [List.take_replicate, min_self]
  · exact congrArg (BufferReader.mk _) (by decide)

/-- C8 amended: a declared length of 0 decodes to the empty string, a
negative declared length fails with a ParseError, and there is no length cap:
every non-negative declared length with that many bytes available in the
buffer decodes successfully. -/
theorem c8_length_prefixed_amended :
    (∀ (r r' : BufferReader), readI32 r = (.ok 0, r') →
        readLengthPrefixedString r = (.ok [], r')) ∧
    (∀ (r : BufferReader) (len : Int) (r' : BufferReader),
        readI32 r = (.ok len, r') → len < 0 →
        readLengthPrefixedString r = (.error "Negative string length", r')) ∧
    (∀ (r : BufferReader) (len : Int) (r' : BufferReader),
        readI32 r = (.ok len, r') → 0 ≤ len → r'.hasBytes len.toNat →
        readLengthPrefixedString r =
          (.ok ((r'.buffer.drop r'.position).take len.toNat),
            ⟨r'.buffer, r'.position + len.toNat⟩)) :=
  ⟨fun r r' h => readLengthPrefixedString_zero r r' h,
   fun r len r' h hneg => readLengthPrefixedString_negative r len r' h hneg,
   fun r len r' h hnn havail => readLengthPrefixedString_success r len r' h hnn havail⟩

/-- Witness for C8 at concrete inputs. -/
theorem c8_witness :
    readLengthPrefixedString ⟨[0, 0, 0, 0, 7], 0⟩ = (.ok [], ⟨[0, 0, 0, 0, 7], 4⟩) ∧
    readLengthPrefixedString ⟨[255, 255, 255, 255], 0⟩ =
      (.error "Negative string length", ⟨[255, 255, 255, 255], 4⟩) ∧
    readLengthPrefixedString ⟨[0, 0, 0, 2, 55, 56, 57], 0⟩ =
      (.ok (([0, 0, 0, 2, 55, 56, 57].drop 4).take (2 : Int).toNat),
        ⟨[0, 0, 0, 2, 55, 56, 57], 4 + (2 : Int).toNat⟩) :=
  ⟨c8_length_prefixed_amended.1 ⟨[0, 0, 0, 0, 7], 0⟩ ⟨[0, 0, 0, 0, 7], 4⟩ (by decide),
   c8_length_prefixed_amended.2.1 ⟨[255, 255, 255, 255], 0⟩ (-1)
     ⟨[255, 255, 255, 255], 4⟩ (by decide) (by decide),
   c8_length_prefixed_amended.2.2 ⟨[0, 0, 0, 2, 55, 56, 57], 0⟩ 2
     ⟨[0, 0, 0, 2, 55, 56, 57], 4⟩ (by decide) (by decide) (by decide)⟩

/-! ## C9: cursor atomicity -/

/-- A fixed-width reader operation is atomic: it either succeeds and advances
the cursor by exactly its width, or fails leaving the reader untouched. -/
def fixedAtomic {α : Type} (width : Nat)
    (f : BufferReader → Except String α × BufferReader) : Prop :=
  ∀ r : BufferReader,
    (∃ v, f r = (.ok v, ⟨r.buffer, r.position + width⟩)) ∨
    (∃ e, f r = (.error e, r))

/-- The analogous property for writer operations. -/
def writeAtomic (width : Nat)
    (f : BufferWriter → Except String Unit × BufferWriter) : Prop :=
  ∀ w : BufferWriter,
    (∃ buf, f w = (.ok (), ⟨buf, w.position + width⟩)) ∨
    (∃ e, f w = (.error e, w))

theorem readU8_atomic : fixedAtomic 1 readU8 := by
  intro r; unfold readU8; split
  · exact Or.inl ⟨_, rfl⟩
  · exact Or.inr ⟨_, rfl⟩

theorem readI16_atomic : fixedAtomic 2 readI16 := by
  intro r; unfold readI16; split
  · exact Or.inl ⟨_, rfl⟩
  · exact Or.inr ⟨_, rfl⟩

theorem readU32_atomic : fixedAtomic 4 readU32 := by
  intro r; unfold readU32; split
  · exact Or.inl ⟨_, rfl⟩
  · exact Or.inr ⟨_, rfl⟩

theorem readI32_atomic : fixedAtomic 4 readI32 := by
  intro r; unfold readI32; split
  · exact Or.inl ⟨_, rfl⟩
  · exact Or.inr ⟨_, rfl⟩

theorem readU64_atomic : fixedAtomic 8 readU64 := by
  intro r; unfold readU64; split
  · exact Or.inl ⟨_, rfl⟩
  · exact Or.inr ⟨_, rfl⟩

theorem readI64_atomic : fixedAtomic 8 readI64 := by
  intro r; unfold readI64; split
  · exact Or.inl ⟨_, rfl⟩
  · exact Or.inr ⟨_, rfl⟩

theorem peekU8_atomic : fixedAtomic 0 peekU8 := by
  intro r; unfold peekU8; split
  · exact Or.inl ⟨_, rfl⟩
  · exact Or.inr ⟨_, rfl⟩

theorem writeU8_atomic (v : Nat) : writeAtomic 1 (fun w => writeU8 w v) := by
  intro w; dsimp only; unfold writeU8; split
  · exact Or.inl ⟨_, rfl⟩
  · exact Or.inr ⟨_, rfl⟩

theorem writeU32_atomic (v : Nat) : writeAtomic 4 (fun w => writeU32 w v) := by
  intro w; dsimp only; unfold writeU32; split
  · exact Or.inl ⟨_, rfl⟩
  · exact Or.inr ⟨_, rfl⟩

theorem writeU64_atomic (v : Nat) : writeAtomic 8 (fun w => writeU64 w v) := by
  intro w; dsimp only; unfold writeU64; split
  · exact Or.inl ⟨_, rfl⟩
  · exact Or.inr ⟨_, rfl⟩

theorem writeI32_atomic (v : Int) : writeAtomic 4 (fun w => writeI32 w v) := by
  intro w; dsimp only; unfold writeI32; split
  · exact Or.inl ⟨_, rfl⟩
  · exact Or.inr ⟨_, rfl⟩

theorem writeI64_atomic (v : Int) : writeAtomic 8 (fun w => writeI64 w v) := by
  intro w; dsimp only; unfold writeI64; split
  · exact Or.inl ⟨_, rfl⟩
  · exact Or.inr ⟨_, rfl⟩

theorem writeBytes_atomic (bytes : List Nat) :
    writeAtomic bytes.length (fun w => writeBytes w bytes) := by
  intro w; dsimp only; unfold writeBytes; split
  · exact Or.inl ⟨_, rfl⟩
  · exact Or.inr ⟨_, rfl⟩

/-- On failure the null-terminated read leaves the cursor at the end of the
scan, which is at or beyond the end of the buffer, not at its original
position (unless the scan was empty). -/
theorem readNullTerminatedString_failure (r : BufferReader)
    (e : Except String (List Nat)) (r' : BufferReader)
    (h : readNullTerminatedString r = (e, r')) (herr : ∀ v, e ≠ .ok v) :
    r'.position =
      r.position + ((r.buffer.drop r.position).takeWhile
        (fun b => decide (b ≠ 0))).length ∧
    r.buffer.length ≤ r'.position := by
  unfold readNullTerminatedString at h
  dsimp only at h
  split at h
  · cases h
    exact ⟨rfl, by assumption⟩
  · cases h
    exact absurd rfl (herr _)

/-- C9 counterexample: the string reads are not atomic.  A buffer with a
single non-zero byte makes the null-terminated read fail with the cursor
moved from 0 to 1, and a negative length prefix makes the length-prefixed
read fail with the cursor moved from 0 to 4. -/
theorem c9_counterexample :
    readNullTerminatedString ⟨[65], 0⟩ =
      (.error "String not null-terminated", ⟨[65], 1⟩) ∧
    (readNullTerminatedString ⟨[65], 0⟩).2.position ≠ (0 : Nat) ∧
    readLengthPrefixedString ⟨[255, 255, 255, 255], 0⟩ =
      (.error "Negative string length", ⟨[255, 255, 255, 255], 4⟩) ∧
    (readLengthPrefixedString ⟨[255, 255, 255, 255], 0⟩).2.position ≠ (0 : Nat) := by
  refine ⟨by decide, by decide, by decide, by decide⟩

/-- C9 amended: every fixed-width read, the peek, and every write is atomic
(success advances the cursor by exactly the operation's width; failure leaves
the state untouched), but the two string reads are not: a failed
null-terminated read leaves the cursor at the end of the scan (at or past the
end of the buffer), and a length-prefixed read that fails after the length
field leaves the cursor past the 4-byte prefix. -/
theorem c9_cursor_atomicity_amended :
    fixedAtomic 1 readU8 ∧ fixedAtomic 2 readI16 ∧ fixedAtomic 4 readU32 ∧
    fixedAtomic 4 readI32 ∧ fixedAtomic 8 readU64 ∧ fixedAtomic 8 readI64 ∧
    fixedAtomic 0 peekU8 ∧
    (∀ v, writeAtomic 1 (fun w => writeU8 w v)) ∧
    (∀ v, writeAtomic 4 (fun w => writeU32 w v)) ∧
    (∀ v, writeAtomic 8 (fun w => writeU64 w v)) ∧
    (∀ v, writeAtomic 4 (fun w => writeI32 w v)) ∧
    (∀ v, writeAtomic 8 (fun w => writeI64 w v)) ∧
    (∀ bytes, writeAtomic bytes.length (fun w => writeBytes w bytes)) ∧
    (∀ (r : BufferReader) (e : Except String (List Nat)) (r' : BufferReader),
        readNullTerminatedString r = (e, r') → (∀ v, e ≠ .ok v) →
        r.buffer.length ≤ r'.position) ∧
    (∀ (r : BufferReader) (len : Int) (r' : BufferReader),
        readI32 r = (.ok len, r') → len < 0 →
        (readLengthPrefixedString r).2 = r') :=
  ⟨readU8_atomic, readI16_atomic, readU32_atomic, readI32_atomic, readU64_atomic,
   readI64_atomic, peekU8_atomic, writeU8_atomic, writeU32_atomic, writeU64_atomic,
   writeI32_atomic, writeI64_atomic, writeBytes_atomic,
   fun r e r' h herr => (readNullTerminatedString_failure r e r' h herr).2,
   fun r len r' h hneg => by rw [readLengthPrefixedString_negative r len r' h hneg]⟩

/-- Witness for C9 at concrete inputs. -/
theorem c9_witness :
    ((∃ v, readU8 ⟨[9], 0⟩ = (.ok v, ⟨[9], 0 + 1⟩)) ∨
      (∃ e, readU8 ⟨[9], 0⟩ = (.error e, ⟨[9], 0⟩))) ∧
    ((∃ buf, writeU64 ⟨List.replicate 9 0, 0⟩ 5 = (.ok (), ⟨buf, 0 + 8⟩)) ∨
      (∃ e, writeU64 ⟨List.replicate 9 0, 0⟩ 5 = (.error e, ⟨List.replicate 9 0, 0⟩))) ∧
    ([65] : List Nat).length ≤ (readNullTerminatedString ⟨[65], 0⟩).2.position ∧
    (readLengthPrefixedString ⟨[255, 255, 255, 255], 0⟩).2 =
      ⟨[255, 255, 255, 255], 4⟩ :=
  ⟨c9_cursor_atomicity_amended.1 ⟨[9], 0⟩,
   c9_cursor_atomicity_amended.2.2.2.2.2.2.2.2.2.1 5 ⟨List.replicate 9 0, 0⟩,
   c9_cursor_atomicity_amended.2.2.2.2.2.2.2.2.2.2.2.2.2.1 ⟨[65], 0⟩
     (.error "String not null-terminated") ⟨[65], 1⟩ (by decide)
     (fun v h => by cases h),
   c9_cursor_atomicity_amended.2.2.2.2.2.2.2.2.2.2.2.2.2.2 ⟨[255, 255, 255, 255], 0⟩
     (-1) ⟨[255, 255, 255, 255], 4⟩ (by decide) (by decide)⟩

/-! ## Typed-value decoder (src/event_sink/pg_type_conversion.rs)

External parsers (uuid, serde_json, chrono) are collaborators: the embedding
carries the parsed text in the value and abstracts each parser to a success
predicate on the text, which is all the decoder's control flow observes. -/

inductive PgType where
  | bool | bytea | char | name | int8 | int2 | int2vector | int4 | text
  | oid | tid | xid | cid | oidvector | json | xml | xid8 | point | lseg
  | path | box | polygon | line | float4 | float8 | unknown | circle | money
  | macaddr | inet | cidr | macaddr8 | aclitem | bpchar | varchar | date
  | time | timestamp | timestamptz | interval | timetz | bit | varbit
  | numeric | refcursor | uuid | tsvector | gtsvector | tsquery | jsonb
  | jsonpath | txidSnapshot | int4range | numrange | tsrange | tstzrange
  | daterange | int8range | int4multirange | nummultirange | tsmultirange
  | tstzmultirange | datemultirange
deriving Repr, DecidableEq

/-- PgType::try_from over the raw type oid. -/
def pgTypeTryFrom (value : Nat) : Option PgType :=
  match value with
  | 16 => some .bool
  | 17 => some .bytea
  | 18 => some .char
  | 19 => some .name
  | 20 => some .int8
  | 21 => some .int2
  | 22 => some .int2vector
  | 23 => some .int4
  | 25 => some .text
  | 26 => some .oid
  | 27 => some .tid
  | 28 => some .xid
  | 29 => some .cid
  | 30 => some .oidvector
  | 114 => some .json
  | 142 => some .xml
  | 5069 => some .xid8
  | 600 => some .point
  | 601 => some .lseg
  | 602 => some .path
  | 603 => some .box
  | 604 => some .polygon
  | 628 => some .line
  | 700 => some .float4
  | 701 => some .float8
  | 705 => some .unknown
  | 718 => some .circle
  | 790 => some .money
  | 829 => some .macaddr
  | 869 => some .inet
  | 650 => some .cidr
  | 774 => some .macaddr8
  | 1033 => some .aclitem
  | 1042 => some .bpchar
  | 1043 => some .varchar
  | 1082 => some .date
  | 1083 => some .time
  | 1114 => some .timestamp
  | 1184 => some .timestamptz
  | 1186 => some .interval
  | 1266 => some .timetz
  | 1560 => some .bit
  | 1562 => some .varbit
  | 1700 => some .numeric
  | 1790 => some .refcursor
  | 2950 => some .uuid
  | 3614 => some .tsvector
  | 3642 => some .gtsvector
  | 3615 => some .tsquery
  | 3802 => some .jsonb
  | 4072 => some .jsonpath
  | 2970 => some .txidSnapshot
  | 3904 => some .int4range
  | 3906 => some .numrange
  | 3908 => some .tsrange
  | 3910 => some .tstzrange
  | 3912 => some .daterange
  | 3926 => some .int8range
  | 4451 => some .int4multirange
  | 4532 => some .nummultirange
  | 4533 => some .tsmultirange
  | 4534 => some .tstzmultirange
  | 4535 => some .datemultirange
  | _ => none

inductive ColumnValue where
  | str (s : List Nat)
  | uuid (s : List Nat)
  | int (n : Nat)
  | bool (b : Bool)
  | json (s : List Nat)
  | timestamp (s : List Nat)
  | date (s : List Nat)
  | timestampTZ (s : List Nat)
deriving Repr, DecidableEq

/-- Success predicates abstracting the external text parsers. -/
structure ValueParsers where
  jsonOk : List Nat → Bool
  uuidOk : List Nat → Bool
  dateOk : List Nat → Bool
  timestampOk : List Nat → Bool
  timestamptzOk : List Nat → Bool

/-- The per-column match of tuple_to_row: special-cased types parse the text
and fall back to a String carrying the raw text on failure; every other known
type passes through as String. -/
def convertValue (ps : ValueParsers) (ty : PgType) (data : List Nat) : ColumnValue :=
  match ty with
  | .jsonb => if ps.jsonOk data then .json data else .str data
  | .json => if ps.jsonOk data then .json data else .str data
  | .uuid => if ps.uuidOk data then .uuid data else .str data
  | .date => if ps.dateOk data then .date data else .str data
  | .timestamp => if ps.timestampOk data then .timestamp data else .str data
  | .timestamptz => if ps.timestamptzOk data then .timestampTZ data else .str data
  | _ => .str data

/-- to_tuple: a column whose type oid is unknown is dropped (None). -/
def toTuple (c : ColumnInfo) : Option (List Nat × PgType) :=
  match pgTypeTryFrom c.columnType with
  | none => none
  | some t => some (c.columnName, t)

structure ReplicationEventDecoder where
  relations : List (Nat × List (List Nat × PgType))
deriving Repr, DecidableEq

def ReplicationEventDecoder.new : ReplicationEventDecoder := ⟨[]⟩

def lookupRelation (d : ReplicationEventDecoder) (oid : Nat) :
    Option (List (List Nat × PgType)) :=
  (d.relations.find? (fun p => decide (p.1 = oid))).map (·.2)

/-- HashMap insert keyed by oid (replaces any previous entry). -/
def insertRelation (d : ReplicationEventDecoder) (oid : Nat)
    (cols : List (List Nat × PgType)) : ReplicationEventDecoder :=
  ⟨(oid, cols) :: d.relations.filter (fun p => decide (p.1 ≠ oid))⟩

structure ReplicationRow where
  columnValues : List (List Nat × ColumnValue)
deriving Repr, DecidableEq

/-- HashMap insert for the row being built (replaces on duplicate name). -/
def insertColumnValue (m : List (List Nat × ColumnValue)) (k : List Nat)
    (v : ColumnValue) : List (List Nat × ColumnValue) :=
  (k, v) :: m.filter (fun p => decide (p.1 ≠ k))

def lookupColumnValue (m : List (List Nat × ColumnValue)) (k : List Nat) :
    Option ColumnValue :=
  (m.find? (fun p => decide (p.1 = k))).map (·.2)

/-- The aborts tuple_to_row can hit: the expect-style unwrap on an unknown
table oid, and the direct index into the cached column list. -/
inductive DecPanic where
  | unknownOid (oid : Nat)
  | indexOutOfBounds
deriving Repr, DecidableEq

/-- The indexed loop of tuple_to_row: column i of the tuple is paired with
entry i of the cached column list; a missing entry is the index panic. -/
def rowLoop (ps : ValueParsers) (table : List (List Nat × PgType)) :
    List ColumnData → Nat → List (List Nat × ColumnValue) →
      Except DecPanic (List (List Nat × ColumnValue))
  | [], _, acc => .ok acc
  | c :: rest, i, acc =>
      match table.get? i with
      | none => .error .indexOutOfBounds
      | some colDef =>
          rowLoop ps table rest (i + 1)
            (insertColumnValue acc colDef.1 (convertValue ps colDef.2 c.data))

/-- tuple_to_row: unwrap the cached relation (partial: unknown oid aborts the
process), then convert each tuple column by position. -/
def tupleToRow (ps : ValueParsers) (d : ReplicationEventDecoder)
    (relationId : Nat) (tupleData : TupleData) : Except DecPanic ReplicationRow :=
  match lookupRelation d relationId with
  | none => .error (.unknownOid relationId)
  | some table =>
      (rowLoop ps table tupleData.columns 0 []).map (fun m => ⟨m⟩)

/-- decode: Relation messages cache the filtered column list and produce no
row; Insert and Update (new image) produce a row via tuple_to_row; all other
messages produce no row.  This is the first thing Hook0EventSink::send_event
does with an incoming message. -/
def decode (ps : ValueParsers) (d : ReplicationEventDecoder)
    (message : ReplicationMessage) :
    Except DecPanic (ReplicationEventDecoder × Option ReplicationRow) :=
  match message with
  | .relation r =>
      .ok (insertRelation d r.oid (r.columns.filterMap toTuple), none)
  | .insert relationId tupleData _ _ =>
      (tupleToRow ps d relationId tupleData).map (fun row => (d, some row))
  | .update relationId _ _ newTupleData _ _ =>
      (tupleToRow ps d relationId newTupleData).map (fun row => (d, some row))
  | _ => .ok (d, none)

theorem lookupRelation_insert (d : ReplicationEventDecoder) (oid : Nat)
    (cols : List (List Nat × PgType)) :
    lookupRelation (insertRelation d oid cols) oid = some cols := by
  unfold lookupRelation insertRelation
  simp [List.find?]

theorem rowLoop_ok (ps : ValueParsers) (table : List (List Nat × PgType)) :
    ∀ (cols : List ColumnData) (i : Nat) (acc : List (List Nat × ColumnValue)),
      i + cols.length ≤ table.length →
      ∃ m, rowLoop ps table cols i acc = .ok m := by
  intro cols
  induction cols with
  | nil => intro i acc _; exact ⟨acc, rfl⟩
  | cons c rest ih =>
      intro i acc h
      have hi : i < table.length := by simp at h; omega
      obtain ⟨e, he⟩ : ∃ e, table.get? i = some e := by
        rw [List.get?_eq_get hi]; exact ⟨_, rfl⟩
      unfold rowLoop
      rw [he]
      exact ih (i + 1) _ (by simp at h ⊢; omega)

theorem rowLoop_oob (ps : ValueParsers) (table : List (List Nat × PgType)) :
    ∀ (cols : List ColumnData) (i : Nat) (acc : List (List Nat × ColumnValue)),
      cols ≠ [] → table.length < i + cols.length →
      rowLoop ps table cols i acc = .error .indexOutOfBounds := by
  intro cols
  induction cols with
  | nil => intro i acc hne _; exact absurd rfl hne
  | cons c rest ih =>
      intro i acc _ h
      by_cases hi : i < table.length
      · obtain ⟨e, he⟩ : ∃ e, table.get? i = some e := by
          rw [List.get?_eq_get hi]; exact ⟨_, rfl⟩
        unfold rowLoop
        rw [he]
        have hrest : rest ≠ [] := by
          intro hnil
          subst hnil
          simp at h
          omega
        exact ih (i + 1) _ hrest (by simp at h ⊢; omega)
      · unfold rowLoop
        rw [List.get?_eq_none.mpr (by omega)]

theorem rowLoop_no_unknownOid (ps : ValueParsers)
    (table : List (List Nat × PgType)) :
    ∀ (cols : List ColumnData) (i : Nat) (acc : List (List Nat × ColumnValue))
      (o : Nat), rowLoop ps table cols i acc ≠ .error (.unknownOid o) := by
  intro cols
  induction cols with
  | nil => intro i acc o h; exact Except.noConfusion h
  | cons c rest ih =>
      intro i acc o h
      unfold rowLoop at h
      cases he : table.get? i with
      | none => rw [he] at h; cases h
      | some e => rw [he] at h; exact ih (i + 1) _ o h

theorem tupleToRow_ok (ps : ValueParsers) (d : ReplicationEventDecoder)
    (rid : Nat) (td : TupleData) (table : List (List Nat × PgType))
    (hl : lookupRelation d rid = some table)
    (hle : td.columns.length ≤ table.length) :
    ∃ row, tupleToRow ps d rid td = .ok row := by
  unfold tupleToRow
  rw [hl]
  dsimp only
  obtain ⟨m, hm⟩ := rowLoop_ok ps table td.columns 0 [] (by omega)
  exact ⟨⟨m⟩, by rw [hm]; rfl⟩

theorem tupleToRow_oob (ps : ValueParsers) (d : ReplicationEventDecoder)
    (rid : Nat) (td : TupleData) (table : List (List Nat × PgType))
    (hl : lookupRelation d rid = some table)
    (hgt : table.length < td.columns.length) :
    tupleToRow ps d rid td = .error .indexOutOfBounds := by
  unfold tupleToRow
  rw [hl]
  dsimp only
  rw [rowLoop_oob ps table td.columns 0 []
    (by intro hnil; rw [hnil] at hgt; simp at hgt) (by omega)]
  rfl

/-- The all-failing parser bundle used for concrete evaluations. -/
def ps0 : ValueParsers :=
  ⟨fun _ => false, fun _ => false, fun _ => false, fun _ => false, fun _ => false⟩

/-- A Relation announcing oid 1 with a single column whose type oid 999 is
not a known PostgreSQL type oid. -/
def unknownOidRelation : RelationInfo :=
  ⟨1, [], [116], 100, 1, [⟨0, [99], 999, -1⟩]⟩

/-- C5 counterexample: decoding the Relation drops the unknown-oid column
from the cache entirely (the cached column list is empty), and a subsequent
one-column Insert for that relation makes the decoder abort on the
out-of-range index instead of passing the value through as a String. -/
theorem c5_counterexample :
    decode ps0 ReplicationEventDecoder.new (.relation unknownOidRelation) =
      .ok (insertRelation ReplicationEventDecoder.new 1 [], none) ∧
    lookupRelation (insertRelation ReplicationEventDecoder.new 1 []) 1 = some [] ∧
    decode ps0 (insertRelation ReplicationEventDecoder.new 1 [])
        (.insert 1 ⟨1, [⟨116, 1, [120]⟩], 7⟩ false none) =
      .error .indexOutOfBounds := by
  refine ⟨by decide, by decide, by decide⟩

/-- C5 amended: the Relation handler caches only the columns whose type oid
is known, dropping unknown-oid columns (shifting the positions of all later
columns); a tuple longer than the cached list aborts on the index. For the
cached columns: the five special-cased types fall back to a String carrying
the raw wire text when their parse fails, every other known type passes
through as String, and tuple_to_row itself converts every tuple column when
the cached list is long enough. -/
theorem c5_typed_decoder_amended :
    (∀ (ps : ValueParsers) (d : ReplicationEventDecoder) (r : RelationInfo),
        decode ps d (.relation r) =
          .ok (insertRelation d r.oid (r.columns.filterMap toTuple), none) ∧
        lookupRelation (insertRelation d r.oid (r.columns.filterMap toTuple))
          r.oid = some (r.columns.filterMap toTuple)) ∧
    (∀ c : ColumnInfo, pgTypeTryFrom c.columnType = none → toTuple c = none) ∧
    (∀ (ps : ValueParsers) (data : List Nat),
        (ps.uuidOk data = false → convertValue ps .uuid data = .str data) ∧
        (ps.jsonOk data = false → convertValue ps .json data = .str data ∧
          convertValue ps .jsonb data = .str data) ∧
        (ps.dateOk data = false → convertValue ps .date data = .str data) ∧
        (ps.timestampOk data = false →
          convertValue ps .timestamp data = .str data) ∧
        (ps.timestamptzOk data = false →
          convertValue ps .timestamptz data = .str data)) ∧
    (∀ (ps : ValueParsers) (ty : PgType) (data : List Nat),
        ty ≠ .json → ty ≠ .jsonb → ty ≠ .uuid → ty ≠ .date →
        ty ≠ .timestamp → ty ≠ .timestamptz →
        convertValue ps ty data = .str data) ∧
    (∀ (ps : ValueParsers) (d : ReplicationEventDecoder) (rid : Nat)
        (td : TupleData) (table : List (List Nat × PgType)),
        lookupRelation d rid = some table →
        td.columns.length ≤ table.length →
        ∃ row, tupleToRow ps d rid td = .ok row) ∧
    (∀ (ps : ValueParsers) (d : ReplicationEventDecoder) (rid : Nat)
        (td : TupleData) (table : List (List Nat × PgType)),
        lookupRelation d rid = some table →
        table.length < td.columns.length →
        tupleToRow ps d rid td = .error .indexOutOfBounds) := by
  refine ⟨?_, ?_, ?_, ?_, tupleToRow_ok, tupleToRow_oob⟩
  · intro ps d r
    exact ⟨rfl, lookupRelation_insert d r.oid _⟩
  · intro c h
    unfold toTuple
    rw [h]
  · intro ps data
    refine ⟨?_, ?_, ?_, ?_, ?_⟩ <;> intro h <;>
      simp [convertValue, h]
  · intro ps ty data h1 h2 h3 h4 h5 h6
    cases ty <;> simp_all [convertValue]

/-- Witness for C5 at concrete inputs. -/
theorem c5_witness :
    (decode ps0 ReplicationEventDecoder.new (.relation ⟨2, [], [], 100, 1,
        [⟨0, [97], 23, -1⟩]⟩) =
      .ok (insertRelation ReplicationEventDecoder.new 2
        (([⟨0, [97], 23, -1⟩] : List ColumnInfo).filterMap toTuple), none)) ∧
    convertValue ps0 .uuid [120] = .str [120] ∧
    convertValue ps0 .int4 [120] = .str [120] ∧
    (∃ row, tupleToRow ps0 (insertRelation ReplicationEventDecoder.new 2
        [([97], .int4)]) 2 ⟨1, [⟨116, 1, [120]⟩], 7⟩ = .ok row) :=
  ⟨(c5_typed_decoder_amended.1 ps0 ReplicationEventDecoder.new
      ⟨2, [], [], 100, 1, [⟨0, [97], 23, -1⟩]⟩).1,
   (c5_typed_decoder_amended.2.2.1 ps0 [120]).1 rfl,
   c5_typed_decoder_amended.2.2.2.1 ps0 .int4 [120] (by decide) (by decide)
     (by decide) (by decide) (by decide) (by decide),
   c5_typed_decoder_amended.2.2.2.2.1 ps0 _ 2 ⟨1, [⟨116, 1, [120]⟩], 7⟩
     [([97], .int4)] (by decide) (by decide)⟩

/-- C10: when the relation id of an Insert was never decoded from a Relation
message by this decoder, the first step of Hook0EventSink::send_event (the
decode call) hits the unwrap-or-panic on the relation cache: it aborts with
the unknown-table-OID panic rather than returning a row, a skip, or a sink
error; and that panic branch is unreachable exactly when a Relation for the
oid was decoded earlier. -/
theorem c10_unknown_oid_panic :
    (∀ (ps : ValueParsers) (d : ReplicationEventDecoder) (rid : Nat)
        (td : TupleData) (b : Bool) (x : Option Nat),
        lookupRelation d rid = none →
        decode ps d (.insert rid td b x) = .error (.unknownOid rid)) ∧
    (∀ (ps : ValueParsers) (d : ReplicationEventDecoder) (rid : Nat)
        (td : TupleData) (b : Bool) (x : Option Nat),
        (lookupRelation d rid).isSome →
        decode ps d (.insert rid td b x) ≠ .error (.unknownOid rid)) ∧
    (∀ (ps : ValueParsers) (d : ReplicationEventDecoder) (rid : Nat)
        (td : TupleData),
        lookupRelation d rid = none →
        tupleToRow ps d rid td = .error (.unknownOid rid)) := by
  have htup : ∀ (ps : ValueParsers) (d : ReplicationEventDecoder) (rid : Nat)
      (td : TupleData), lookupRelation d rid = none →
      tupleToRow ps d rid td = .error (.unknownOid rid) := by
    intro ps d rid td h
    unfold tupleToRow
    rw [h]
  refine ⟨?_, ?_, htup⟩
  · intro ps d rid td b x h
    unfold decode
    dsimp only
    rw [htup ps d rid td h]
    rfl
  · intro ps d rid td b x hs hcontra
    obtain ⟨table, htable⟩ := Option.isSome_iff_exists.mp hs
    unfold decode tupleToRow at hcontra
    dsimp only at hcontra
    rw [htable] at hcontra
    dsimp only at hcontra
    cases hrl : rowLoop ps table td.columns 0 [] with
    | error e =>
        rw [hrl] at hcontra
        simp [Except.map] at hcontra
        exact rowLoop_no_unknownOid ps table td.columns 0 [] rid
          (by rw [hrl, hcontra])
    | ok m =>
        rw [hrl] at hcontra
        simp [Except.map] at hcontra

/-- Witness for C10 at concrete inputs. -/
theorem c10_witness :
    decode ps0 ReplicationEventDecoder.new (.insert 7 ⟨0, [], 2⟩ false none) =
      .error (.unknownOid 7) ∧
    decode ps0 (insertRelation ReplicationEventDecoder.new 7 [])
        (.insert 7 ⟨0, [], 2⟩ false none) ≠ .error (.unknownOid 7) ∧
    tupleToRow ps0 ReplicationEventDecoder.new 7 ⟨0, [], 2⟩ =
      .error (.unknownOid 7) :=
  ⟨c10_unknown_oid_panic.1 ps0 ReplicationEventDecoder.new 7 ⟨0, [], 2⟩
     false none (by decide),
   c10_unknown_oid_panic.2.1 ps0 (insertRelation ReplicationEventDecoder.new 7 [])
     7 ⟨0, [], 2⟩ false none (by decide),
   c10_unknown_oid_panic.2.2 ps0 ReplicationEventDecoder.new 7 ⟨0, [], 2⟩
     (by decide)⟩

/-! ## Sink retry loops (src/event_sink/http.rs, src/event_sink/hook0.rs)

The network is modelled as a function from the attempt number to that
attempt's outcome.  Retry bookkeeping (attempt counter, delay doubling with
the 30 s cap, slept delays, the continue-on-retry-exceed flag) is embedded
exactly; the loop is driven by fuel that the attempt budget keeps positive. -/

inductive HttpOutcome where
  | resp (status : Nat)
  | netErr
deriving Repr, DecidableEq

/-- reqwest StatusCode::is_success: 2xx. -/
def isSuccessStatus (c : Nat) : Bool := decide (200 ≤ c) && decide (c < 300)

structure HttpRun where
  ok : Bool
  attempts : Nat
  delays : List Nat
deriving Repr, DecidableEq

/-- The retry loop of HttpEventSink::send_event: any non-2xx response and any
transport error is retried until attempt 5, sleeping delay_ms and doubling it
(capped at 30000 ms) between attempts. -/
def httpLoop (resp : Nat → HttpOutcome) :
    Nat → Nat → Nat → List Nat → HttpRun
  | 0, attempt, _, delays => ⟨false, attempt, delays⟩
  | fuel + 1, attempt, delayMs, delays =>
      match resp (attempt + 1) with
      | .resp status =>
          if isSuccessStatus status then ⟨true, attempt + 1, delays⟩
          else if 5 ≤ attempt + 1 then ⟨false, attempt + 1, delays⟩
          else httpLoop resp fuel (attempt + 1) (min (delayMs * 2) 30000)
            (delays ++ [delayMs])
      | .netErr =>
          if 5 ≤ attempt + 1 then ⟨false, attempt + 1, delays⟩
          else httpLoop resp fuel (attempt + 1) (min (delayMs * 2) 30000)
            (delays ++ [delayMs])

def httpSendEvent (resp : Nat → HttpOutcome) : HttpRun :=
  httpLoop resp 5 0 1000 []

theorem httpLoop_attempts_le (resp : Nat → HttpOutcome) :
    ∀ (fuel att d : Nat) (ds : List Nat),
      (httpLoop resp fuel att d ds).attempts ≤ att + fuel := by
  intro fuel
  induction fuel with
  | zero => intro att d ds; exact le_rfl
  | succ fuel ih =>
      intro att d ds
      unfold httpLoop
      cases resp (att + 1) with
      | resp status =>
          dsimp only
          split
          · (try dsimp only); omega
          · split
            · (try dsimp only); omega
            · have h := ih (att + 1) (min (d * 2) 30000) (ds ++ [d])
              omega
      | netErr =>
          dsimp only
          split
          · (try dsimp only); omega
          · have h := ih (att + 1) (min (d * 2) 30000) (ds ++ [d])
            omega

inductive Hook0ErrorId where
  | eventTypeDoesNotExist
  | eventAlreadyIngested
  | internalServerError
  | invalidEventId
  | invalidPayload
  | unauthorized
  | rateLimitExceeded
deriving Repr, DecidableEq

inductive Hook0Outcome where
  | ok
  | eventSending (body : Option Hook0ErrorId)
  | transportErr
deriving Repr, DecidableEq

inductive Hook0Result where
  | ok
  | panicked
deriving Repr, DecidableEq

structure Hook0Run where
  result : Hook0Result
  attempts : Nat
  delays : List Nat
  unknownCached : Bool
deriving Repr, DecidableEq

/-- The retry loop of Hook0EventSink::send_event, after the event has been
decoded and built.  EventTypeDoesNotExist records the event type in the
recently-unknown cache and returns Ok; EventAlreadyIngested returns Ok;
Unauthorized aborts; RateLimitExceeded doubles the delay once in its match
arm and the loop tail doubles it again before the next attempt;
InternalServerError, InvalidEventId, InvalidPayload and an unparseable or
absent body fall through to the plain retry tail; any other transport error
sets continue_on_retry_exceed.  At attempt 5 the loop returns Ok when that
flag is set and aborts otherwise. -/
def hook0Loop (resp : Nat → Hook0Outcome) :
    Nat → Nat → Nat → List Nat → Bool → Hook0Run
  | 0, attempt, _, delays, _ => ⟨.panicked, attempt, delays, false⟩
  | fuel + 1, attempt, delayMs, delays, contFlag =>
      match resp (attempt + 1) with
      | .ok => ⟨.ok, attempt + 1, delays, false⟩
      | .eventSending (some .eventTypeDoesNotExist) =>
          ⟨.ok, attempt + 1, delays, true⟩
      | .eventSending (some .eventAlreadyIngested) =>
          ⟨.ok, attempt + 1, delays, false⟩
      | .eventSending (some .unauthorized) =>
          ⟨.panicked, attempt + 1, delays, false⟩
      | .eventSending (some .rateLimitExceeded) =>
          if 5 ≤ attempt + 1 then
            if contFlag then ⟨.ok, attempt + 1, delays, false⟩
            else ⟨.panicked, attempt + 1, delays, false⟩
          else
            hook0Loop resp fuel (attempt + 1)
              (min (min (delayMs * 2) 30000 * 2) 30000)
              (delays ++ [min (delayMs * 2) 30000]) contFlag
      | .eventSending _ =>
          if 5 ≤ attempt + 1 then
            if contFlag then ⟨.ok, attempt + 1, delays, false⟩
            else ⟨.panicked, attempt + 1, delays, false⟩
          else
            hook0Loop resp fuel (attempt + 1) (min (delayMs * 2) 30000)
              (delays ++ [delayMs]) contFlag
      | .transportErr =>
          if 5 ≤ attempt + 1 then ⟨.ok, attempt + 1, delays, false⟩
          else
            hook0Loop resp fuel (attempt + 1) (min (delayMs * 2) 30000)
              (delays ++ [delayMs]) true

def hook0SendLoop (resp : Nat → Hook0Outcome) : Hook0Run :=
  hook0Loop resp 5 0 1000 [] false

/-- The delay slept before retry number j (0-based): 1 s doubling, 30 s cap. -/
def schedule (j : Nat) : Nat := min (1000 * 2 ^ j) 30000

theorem schedule_succ (j : Nat) : min (schedule j * 2) 30000 = schedule (j + 1) := by
  unfold schedule
  rcases le_or_lt (1000 * 2 ^ j) 30000 with h | h
  · rw [Nat.min_eq_left h, pow_succ]
    ring_nf
  · rw [Nat.min_eq_right (le_of_lt h), Nat.min_eq_right (by norm_num),
      Nat.min_eq_right]
    calc (30000 : Nat) ≤ 1000 * 2 ^ j := le_of_lt h
    _ ≤ 1000 * 2 ^ (j + 1) :=
        Nat.mul_le_mul_left _ (Nat.pow_le_pow_right (by norm_num) (Nat.le_succ j))

theorem hook0Loop_attempts_le (resp : Nat → Hook0Outcome) :
    ∀ (fuel att d : Nat) (ds : List Nat) (cf : Bool),
      (hook0Loop resp fuel att d ds cf).attempts ≤ att + fuel := by
  intro fuel
  induction fuel with
  | zero => intro att d ds cf; exact le_rfl
  | succ fuel ih =>
      intro att d ds cf
      unfold hook0Loop
      cases resp (att + 1) with
      | ok => (try dsimp only); omega
      | transportErr =>
          dsimp only
          split
          · (try dsimp only); omega
          · have h := ih (att + 1) (min (d * 2) 30000) (ds ++ [d]) true
            omega
      | eventSending body =>
          rcases body with _ | id
          · dsimp only
            split
            · split <;> ((try dsimp only); omega)
            · have h := ih (att + 1) (min (d * 2) 30000) (ds ++ [d]) cf
              omega
          · cases id with
            | eventTypeDoesNotExist => (try dsimp only); omega
            | eventAlreadyIngested => (try dsimp only); omega
            | unauthorized => (try dsimp only); omega
            | rateLimitExceeded =>
                dsimp only
                split
                · split <;> ((try dsimp only); omega)
                · have h := ih (att + 1) (min (min (d * 2) 30000 * 2) 30000)
                    (ds ++ [min (d * 2) 30000]) cf
                  omega
            | internalServerError =>
                dsimp only
                split
                · split <;> ((try dsimp only); omega)
                · have h := ih (att + 1) (min (d * 2) 30000) (ds ++ [d]) cf
                  omega
            | invalidEventId =>
                dsimp only
                split
                · split <;> ((try dsimp only); omega)
                · have h := ih (att + 1) (min (d * 2) 30000) (ds ++ [d]) cf
                  omega
            | invalidPayload =>
                dsimp only
                split
                · split <;> ((try dsimp only); omega)
                · have h := ih (att + 1) (min (d * 2) 30000) (ds ++ [d]) cf
                  omega

theorem httpLoop_delays_spec (resp : Nat → HttpOutcome) :
    ∀ (fuel att : Nat), att + fuel = 5 → att ≤ 4 →
      (httpLoop resp fuel att (schedule att)
          ((List.range att).map schedule)).delays =
        (List.range ((httpLoop resp fuel att (schedule att)
          ((List.range att).map schedule)).attempts - 1)).map schedule := by
  intro fuel
  induction fuel with
  | zero => intro att h1 h2; omega
  | succ fuel ih =>
      intro att h1 h2
      unfold httpLoop
      have hrec : (List.range att).map schedule ++ [schedule att] =
          (List.range (att + 1)).map schedule := by
        rw [List.range_succ, List.map_append]
        rfl
      cases resp (att + 1) with
      | resp status =>
          dsimp only
          split
          · simp
          · split
            · simp
            · rw [schedule_succ, hrec]
              exact ih (att + 1) (by omega) (by omega)
      | netErr =>
          dsimp only
          split
          · simp
          · rw [schedule_succ, hrec]
            exact ih (att + 1) (by omega) (by omega)

theorem httpSendEvent_delays (resp : Nat → HttpOutcome) :
    (httpSendEvent resp).delays =
      (List.range ((httpSendEvent resp).attempts - 1)).map schedule := by
  have h := httpLoop_delays_spec resp 5 0 rfl (by omega)
  simpa [httpSendEvent, schedule] using h

theorem httpSendEvent_nonSuccess (code : Nat) (h : isSuccessStatus code = false) :
    httpSendEvent (fun _ => .resp code) = ⟨false, 5, [1000, 2000, 4000, 8000]⟩ := by
  simp [httpSendEvent, httpLoop, h]

theorem httpSendEvent_netErr :
    httpSendEvent (fun _ => .netErr) = ⟨false, 5, [1000, 2000, 4000, 8000]⟩ := by
  simp [httpSendEvent, httpLoop]

theorem hook0_rateLimit_run :
    hook0SendLoop (fun _ => .eventSending (some .rateLimitExceeded)) =
      ⟨.panicked, 5, [2000, 8000, 30000, 30000], false⟩ := by
  simp [hook0SendLoop, hook0Loop]

theorem hook0_invalidPayload_run :
    hook0SendLoop (fun _ => .eventSending (some .invalidPayload)) =
      ⟨.panicked, 5, [1000, 2000, 4000, 8000], false⟩ := by
  simp [hook0SendLoop, hook0Loop]

theorem hook0_transportErr_run :
    hook0SendLoop (fun _ => .transportErr) =
      ⟨.ok, 5, [1000, 2000, 4000, 8000], false⟩ := by
  simp [hook0SendLoop, hook0Loop]

theorem hook0_unknownEventType_run :
    hook0SendLoop (fun _ => .eventSending (some .eventTypeDoesNotExist)) =
      ⟨.ok, 1, [], true⟩ := by
  simp [hook0SendLoop, hook0Loop]

theorem hook0_unauthorized_run :
    hook0SendLoop (fun _ => .eventSending (some .unauthorized)) =
      ⟨.panicked, 1, [], false⟩ := by
  simp [hook0SendLoop, hook0Loop]

/-- C4 counterexample: an HTTP 404 response (a 4xx that is not rate-limiting)
is NOT treated as permanent: the HTTP sink makes all 5 attempts before giving
up; and in the webhook sink a rate-limited attempt is followed by a delay of
2000 ms, not the claimed initial 1000 ms (the delay is doubled twice per
rate-limited attempt, giving 2000, 8000, 30000, 30000). -/
theorem c4_counterexample :
    (httpSendEvent (fun _ => .resp 404)).attempts = 5 ∧
    (httpSendEvent (fun _ => .resp 404)).ok = false ∧
    (hook0SendLoop (fun _ => .eventSending (some .rateLimitExceeded))).delays =
      [2000, 8000, 30000, 30000] := by
  refine ⟨?_, ?_, ?_⟩ <;> decide

/-- C4 amended: for every event delivery, both sinks make at most 5 attempts.
HTTP sink: the slept delays follow min(1000 * 2 ^ k, 30000) ms; every non-2xx
response -- including non-rate-limit 4xx -- and every transport error is
retried until the budget is exhausted (delays 1000, 2000, 4000, 8000 ms) and
then reported as a sink error.  Webhook (Hook0) sink: rate-limited attempts
double the delay twice (2000, 8000, 30000, 30000 ms) and end in a panic after
5 attempts; InvalidPayload (and InternalServerError / InvalidEventId /
unparseable bodies) is retried with the plain schedule and ends in a panic;
unknown transport errors are retried and then swallowed (Ok) after 5
attempts; EventTypeDoesNotExist returns Ok immediately and caches the event
type, and Unauthorized panics on the first attempt. -/
theorem c4_retry_policy_amended :
    (∀ resp : Nat → HttpOutcome, (httpSendEvent resp).attempts ≤ 5) ∧
    (∀ resp : Nat → Hook0Outcome, (hook0SendLoop resp).attempts ≤ 5) ∧
    (∀ resp : Nat → HttpOutcome,
      (httpSendEvent resp).delays =
        (List.range ((httpSendEvent resp).attempts - 1)).map schedule) ∧
    (∀ code : Nat, isSuccessStatus code = false →
      httpSendEvent (fun _ => .resp code) =
        ⟨false, 5, [1000, 2000, 4000, 8000]⟩) ∧
    (httpSendEvent (fun _ => .netErr) = ⟨false, 5, [1000, 2000, 4000, 8000]⟩) ∧
    (hook0SendLoop (fun _ => .eventSending (some .rateLimitExceeded)) =
      ⟨.panicked, 5, [2000, 8000, 30000, 30000], false⟩) ∧
    (hook0SendLoop (fun _ => .eventSending (some .invalidPayload)) =
      ⟨.panicked, 5, [1000, 2000, 4000, 8000], false⟩) ∧
    (hook0SendLoop (fun _ => .transportErr) =
      ⟨.ok, 5, [1000, 2000, 4000, 8000], false⟩) ∧
    (hook0SendLoop (fun _ => .eventSending (some .eventTypeDoesNotExist)) =
      ⟨.ok, 1, [], true⟩) ∧
    (hook0SendLoop (fun _ => .eventSending (some .unauthorized)) =
      ⟨.panicked, 1, [], false⟩) := by
  refine ⟨?_, ?_, httpSendEvent_delays, httpSendEvent_nonSuccess,
    httpSendEvent_netErr, hook0_rateLimit_run, hook0_invalidPayload_run,
    hook0_transportErr_run, hook0_unknownEventType_run, hook0_unauthorized_run⟩
  · intro resp
    simpa using httpLoop_attempts_le resp 5 0 1000 []
  · intro resp
    simpa using hook0Loop_attempts_le resp 5 0 1000 [] false

/-- C4 witness: the amended theorem instantiated at an all-503 HTTP run and
an all-418 HTTP run. -/
theorem c4_witness :
    (httpSendEvent (fun _ => .resp 503)).attempts ≤ 5 ∧
    httpSendEvent (fun _ => .resp 418) =
      ⟨false, 5, [1000, 2000, 4000, 8000]⟩ :=
  ⟨c4_retry_policy_amended.1 _,
    c4_retry_policy_amended.2.2.2.1 418 (by decide)⟩

end Wal2Http
